import Mathlib

/-!
# Verification of the Salesforce activity-summary pipeline

Shallow embedding of `src/index.js` (which contains two concatenated
variants of the application: a non-streaming "first variant" and a
streaming "second variant") and of `src/unnamed/part_000` (a third
variant).  Pure control flow and data manipulation are transliterated
into executable Lean definitions; external effects (Salesforce, OpenAI,
the filesystem, HTTP) are modelled by explicit outcome oracles threaded
through the definitions, and by traces recording which effectful calls
were made.

Naming convention: definitions keep the JavaScript names where Lean
allows it; `V1` suffixes refer to the first (non-streaming) variant in
`src/index.js`, `P0` to `src/unnamed/part_000`, and unsuffixed names to
the second (streaming) variant in `src/index.js`, which is the variant
the specification's pipeline description was written from.
-/

namespace SummaryPipeline

/-! ## JavaScript-style string helpers -/

/-- JS `String.prototype.includes` over the characters of the strings:
`true` iff `pat` occurs as a contiguous substring of `s`. -/
def listIncludes (s pat : List Char) : Bool :=
  match s with
  | [] => pat.isEmpty
  | _ :: rest => pat.isPrefixOf s || listIncludes rest pat

/-- JS `s.includes(pat)`. -/
def jsIncludes (s pat : String) : Bool :=
  listIncludes s.toList pat.toList

/-- JS `s.toLowerCase()` (ASCII, which is all the source uses). -/
def jsToLower (s : String) : String :=
  String.mk (s.toList.map Char.toLower)

/-- JS `s.split(sep)` for a single-character separator, over the
character list. -/
def splitOnChar (c : Char) : List Char → List (List Char)
  | [] => [[]]
  | x :: rest =>
      if x = c then [] :: splitOnChar c rest
      else
        match splitOnChar c rest with
        | g :: gs => (x :: g) :: gs
        | [] => [[x]]

/-- JS `s.startsWith(pre)`. -/
def jsStartsWith (s pre : String) : Bool :=
  pre.toList.isPrefixOf s.toList

/-- JS `s.substring(0, n)`. -/
def jsSubstring (s : String) (n : Nat) : String :=
  String.mk (s.toList.take n)

/-- JS `x?.substring(0, n) || null` applied to an optional string field:
`undefined`/`null` propagates, and an empty result is collapsed to
`null` by `||`. -/
def jsTruncOrNull (s : Option String) (n : Nat) : Option String :=
  match s with
  | none => none
  | some str =>
      let t := jsSubstring str n
      if t = "" then none else some t

/-! ## Dates and month names

Salesforce delivers `ActivityDate` as an ISO `YYYY-MM-DD` string; the
code parses it with `new Date(...)` and rejects `NaN` dates.  We model
the parser for that wire format: three dash-separated decimal fields
with a calendar-valid month and day (the JS engine validates ISO dates
strictly, e.g. rejecting `2024-02-30`). -/

def isLeapYear (y : Nat) : Bool :=
  (y % 4 = 0 && y % 100 ≠ 0) || y % 400 = 0

def daysInMonth (y m : Nat) : Nat :=
  if m = 2 then (if isLeapYear y then 29 else 28)
  else if m = 4 || m = 6 || m = 9 || m = 11 then 30
  else 31

def allDigits (s : String) : Bool :=
  s ≠ "" && s.toList.all Char.isDigit

/-- Decimal value of a digit string. -/
def digitsToNat (s : String) : Nat :=
  s.toList.foldl (fun n c => n * 10 + (c.toNat - 48)) 0

/-- Parse a `YYYY-MM-DD` string to `(year, month 1-12, day)`;
`none` models a JS `Invalid Date`. -/
def parseActivityDate (s : String) : Option (Nat × Nat × Nat) :=
  match (splitOnChar '-' s.toList).map String.mk with
  | [ys, ms, ds] =>
      if allDigits ys && allDigits ms && allDigits ds then
        let y := digitsToNat ys
        let m := digitsToNat ms
        let d := digitsToNat ds
        if 1 ≤ m && m ≤ 12 && 1 ≤ d && d ≤ daysInMonth y m then
          some (y, m, d)
        else none
      else none
  | _ => none

/-- `date.toLocaleString('en-US', { month: 'long', timeZone: 'UTC' })`
for month index 0–11. -/
def monthLongName (idx : Nat) : String :=
  match idx with
  | 0 => "January" | 1 => "February" | 2 => "March" | 3 => "April"
  | 4 => "May" | 5 => "June" | 6 => "July" | 7 => "August"
  | 8 => "September" | 9 => "October" | 10 => "November" | 11 => "December"
  | _ => ""

/-- The `monthMap` object in `processSummary`: lowercased long month
name → 0-based month index (`none` models `undefined`). -/
def monthMap (name : String) : Option Nat :=
  match name with
  | "january" => some 0 | "february" => some 1 | "march" => some 2
  | "april" => some 3 | "may" => some 4 | "june" => some 5
  | "july" => some 6 | "august" => some 7 | "september" => some 8
  | "october" => some 9 | "november" => some 10 | "december" => some 11
  | _ => none

/-- `getQuarterFromMonthIndex` (identical in all three variants). -/
def getQuarterFromMonthIndex (monthIndex : Nat) : String :=
  if monthIndex ≤ 2 then "Q1"
  else if 3 ≤ monthIndex ∧ monthIndex ≤ 5 then "Q2"
  else if 6 ≤ monthIndex ∧ monthIndex ≤ 8 then "Q3"
  else if 9 ≤ monthIndex ∧ monthIndex ≤ 11 then "Q4"
  else "Unknown"

/-! ## Records and batch activities -/

/-- An activity record as delivered by the bulk-query stream.  Optional
fields model JS `null`/`undefined`; by JS truthiness an empty
`ActivityDate` string behaves like a missing one, so we also treat
`some ""` as missing below. -/
structure SFRecord where
  Id : String
  ActivityDate : Option String
  Description : Option String
  Subject : Option String
deriving Repr, DecidableEq

/-- The truncated activity object pushed onto `currentMonthActivities`
(stream `record` handler, second variant). -/
structure Activity where
  Id : String
  Description : Option String
  Subject : Option String
  ActivityDate : String
deriving Repr, DecidableEq

def DESCRIPTION_TRUNCATE_LENGTH : Nat := 1000
def SUBJECT_TRUNCATE_LENGTH : Nat := 250
def BULK_QUERY_BATCH_SIZE : Nat := 500

/-- Truncation applied when a record is appended to the current batch. -/
def truncAct (r : SFRecord) (dateStr : String) : Activity :=
  { Id := r.Id
    Description := jsTruncOrNull r.Description DESCRIPTION_TRUNCATE_LENGTH
    Subject := jsTruncOrNull r.Subject SUBJECT_TRUNCATE_LENGTH
    ActivityDate := dateStr }

/-- The `(year, month-long-name)` period the stream handler computes for
a record (`getUTCFullYear` / `toLocaleString long month`); `none` when
the date is missing (JS-falsy) or unparseable. -/
def parsePeriod (r : SFRecord) : Option (Nat × String) :=
  match r.ActivityDate with
  | none => none
  | some s =>
      if s = "" then none
      else match parseActivityDate s with
        | none => none
        | some (y, m, _) => some (y, monthLongName (m - 1))

/-- The period recoverable from an already-truncated batch activity. -/
def actPeriod (a : Activity) : Option (Nat × String) :=
  match parseActivityDate a.ActivityDate with
  | none => none
  | some (y, m, _) => some (y, monthLongName (m - 1))

/-! ## The batch accumulator (stream `record` handler, second variant)

`coreStep` is the body of the handler for a record with a valid date,
acting on the accumulation state; `handleRecord` adds the
`recordCount++` and the `streamPaused` guard.  Emitting a batch models
the synchronous `await processAndSaveMonthBatch(...)` call: the batch
processing itself has no feedback into the accumulation state, so it is
replayed separately by the orchestrator model below. -/

structure CoreState where
  /-- `currentYear` / `currentMonth` (`null` initially; always assigned
  together in the source). -/
  currentPeriod : Option (Nat × String)
  currentMonthActivities : List Activity
  /-- batches passed to `processAndSaveMonthBatch`, with the
  `(currentYear, currentMonth)` arguments they were called with. -/
  emitted : List (Option (Nat × String) × List Activity)
deriving Repr, DecidableEq

def initCore : CoreState := ⟨none, [], []⟩

/-- One valid-dated record: month-change detection, append, sub-batch
check — lines 1795–1850 of `src/index.js`. -/
def coreStep (st : CoreState) (p : Nat × String) (act : Activity) : CoreState :=
  -- month change detection: `year !== currentYear || month !== currentMonth`
  let st :=
    if some p ≠ st.currentPeriod then
      let st :=
        if st.currentMonthActivities ≠ [] then
          { st with
            emitted := st.emitted ++ [(st.currentPeriod, st.currentMonthActivities)]
            currentMonthActivities := [] }
        else st
      { st with currentPeriod := some p }
    else st
  -- append the truncated record
  let st := { st with currentMonthActivities := st.currentMonthActivities ++ [act] }
  -- sub-batch processing within a month
  if BULK_QUERY_BATCH_SIZE ≤ st.currentMonthActivities.length then
    { st with
      emitted := st.emitted ++ [(st.currentPeriod, st.currentMonthActivities)]
      currentMonthActivities := [] }
  else st

structure StreamState where
  recordCount : Nat
  core : CoreState
deriving Repr, DecidableEq

def initStream : StreamState := ⟨0, initCore⟩

/-- The full `record` event handler.  `streamPaused` is the value of the
pause flag at handler entry: a record delivered while the flag is set is
counted but otherwise ignored entirely. -/
def handleRecord (streamPaused : Bool) (st : StreamState) (r : SFRecord) : StreamState :=
  let st := { st with recordCount := st.recordCount + 1 }
  if streamPaused then st
  else
    match parsePeriod r, r.ActivityDate with
    | some p, some ds => { st with core := coreStep st.core p (truncAct r ds) }
    | _, _ => st  -- missing or invalid ActivityDate: skipped with a warning

/-- Flush of the final open batch in the stream `end` handler. -/
def endFlush (c : CoreState) : CoreState :=
  if c.currentMonthActivities ≠ [] then
    { c with
      emitted := c.emitted ++ [(c.currentPeriod, c.currentMonthActivities)]
      currentMonthActivities := [] }
  else c

/-- Sequential stream semantics: every record handled with the pause
flag clear (within one handler invocation the flag is set and cleared
again before the handler returns), then the `end` flush. -/
def streamRun (records : List SFRecord) : StreamState :=
  records.foldl (handleRecord false) initStream

/-- All batches handed to `processAndSaveMonthBatch` over a full,
error-free stream. -/
def streamBatches (records : List SFRecord) : List (Option (Nat × String) × List Activity) :=
  (endFlush (streamRun records).core).emitted

/-- Batches emitted during streaming only (available even when the
stream errors before its `end` event). -/
def streamBatchesNoEnd (records : List SFRecord) : List (Option (Nat × String) × List Activity) :=
  (streamRun records).core.emitted

/-! ## Pipeline run state (second-variant `processSummary`)

`α` is the type of a parsed monthly AI output (the object returned by
`generateSummary` for a month batch): the pipeline never inspects it, it
only stores, serializes and forwards it. -/

/-- One entry of the `quarterlyInputs` map:
`{ monthSummaries: [...], year, quarter }`. -/
structure QuarterEntry (α : Type) where
  monthSummaries : List α
  year : Nat
  quarter : String
deriving Repr, DecidableEq

structure RunState (α : Type) where
  overallStatus : String
  failureMessages : List String
  /-- `quarterlyInputs`, an object whose string keys (`"2024-Q1"`) are
  iterated in insertion order — modelled as an insertion-ordered
  association list. -/
  quarterlyInputs : List (String × QuarterEntry α)
deriving Repr, DecidableEq

def initRunState (α : Type) : RunState α := ⟨"Success", [], []⟩

/-- `quarterKey` construction: `` `${year}-${quarter}` ``. -/
def mkQuarterKey (year : Nat) (quarter : String) : String :=
  toString year ++ "-" ++ quarter

/-- `if (!quarterlyInputs[quarterKey]) quarterlyInputs[quarterKey] =
{ monthSummaries: [], year, quarter }; ...monthSummaries.push(out)`. -/
def pushQuarterInput {α : Type} (key : String) (year : Nat) (quarter : String)
    (out : α) : List (String × QuarterEntry α) → List (String × QuarterEntry α)
  | [] => [(key, ⟨[out], year, quarter⟩)]
  | (k, e) :: rest =>
      if k = key then
        (k, { e with monthSummaries := e.monthSummaries ++ [out] }) :: rest
      else
        (k, e) :: pushQuarterInput key year quarter out rest

/-! ## `processAndSaveMonthBatch`

External calls inside the `try` block (assistant creation,
`generateSummary`, the Salesforce save) are successive awaits whose
failures are all caught by the same batch-scope `catch`; they are
supplied as an oracle.  The `finally` block deletes the assistant if one
was created, swallowing deletion failures. -/

structure MonthEnv (α : Type) where
  /-- `openai.beta.assistants.create` (the id itself is irrelevant). -/
  assistantCreate : Except String Unit
  /-- `generateSummary(activities, ...)` — parsed monthly AI output or a
  thrown error. -/
  genSummary : Except String α
  /-- `createTimileSummarySalesforceRecords` for the month. -/
  sfSave : Except String Unit
  /-- whether `openai.beta.assistants.del` succeeds (failure is logged
  and swallowed). -/
  assistantDeleteOk : Bool

/-- Trace of one `processAndSaveMonthBatch` invocation. -/
structure MonthTrace where
  /-- the `(year, month)` arguments of the invocation. -/
  label : Option (Nat × String)
  /-- `activities.length` for the invocation. -/
  size : Nat
  /-- an assistant resource was created. -/
  assistantCreated : Bool
  /-- `assistants.del` was attempted in the `finally` block. -/
  assistantDeleteAttempted : Bool
deriving Repr, DecidableEq

/-- Failure bookkeeping of the batch-scope `catch`:
`overallStatus = "Failed"` and a message
`Failed processing {month} {year}: {err}`. -/
def monthCatch {α : Type} (st : RunState α) (month : String) (year : Nat)
    (err : String) : RunState α :=
  { st with
    overallStatus := "Failed"
    failureMessages := st.failureMessages ++
      ["Failed processing " ++ month ++ " " ++ toString year ++ ": " ++ err] }

/-- `processAndSaveMonthBatch(year, month, activities)`; the stream only
ever calls it with a non-empty batch (hence a non-`null` label), but we
keep the source's guards.  A `none` label (unreachable) is skipped. -/
def processAndSaveMonthBatch {α : Type} (env : MonthEnv α)
    (label : Option (Nat × String)) (acts : List Activity) (st : RunState α) :
    RunState α × MonthTrace :=
  match label with
  | none => (st, ⟨none, acts.length, false, false⟩)
  | some (year, month) =>
    if acts.length = 0 then (st, ⟨label, 0, false, false⟩)
    else
      match monthMap (jsToLower month) with
      | none =>  -- "Could not map month name ... Skipping batch."
          (st, ⟨label, acts.length, false, false⟩)
      | some monthIndex =>
          match env.assistantCreate with
          | .error e => (monthCatch st month year e, ⟨label, acts.length, false, false⟩)
          | .ok _ =>
              match env.genSummary with
              | .error e => (monthCatch st month year e, ⟨label, acts.length, true, true⟩)
              | .ok monthlyAiOutput =>
                  match env.sfSave with
                  | .error e => (monthCatch st month year e, ⟨label, acts.length, true, true⟩)
                  | .ok _ =>
                      let quarter := getQuarterFromMonthIndex monthIndex
                      let quarterKey := mkQuarterKey year quarter
                      let qi := pushQuarterInput quarterKey year quarter
                        monthlyAiOutput st.quarterlyInputs
                      ({ st with quarterlyInputs := qi },
                       ⟨label, acts.length, true, true⟩)

/-- The month phase: each batch handed off by the stream is processed in
order, with the `i`-th batch using oracle `menv i`. -/
def runMonthPhase {α : Type} (menv : Nat → MonthEnv α)
    (batches : List (Option (Nat × String) × List Activity)) (st : RunState α) :
    RunState α × List MonthTrace :=
  go 0 batches st
where
  go (i : Nat) : List (Option (Nat × String) × List Activity) → RunState α →
      RunState α × List MonthTrace
  | [], st => (st, [])
  | b :: rest, st =>
      let r := processAndSaveMonthBatch (menv i) b.1 b.2 st
      let rest' := go (i + 1) rest r.1
      (rest'.1, r.2 :: rest'.2)

/-! ## Quarterly AI output and `transformQuarterlyStructure`

The quarterly AI output is the parsed JSON of the forced
`generate_quarterly_activity_summary` call.  Optional fields model
missing JSON properties; JS truthiness tests (`!x`) treat `none`,
`some 0` and `some ""` as falsy. -/

structure QuarterData where
  quarter : Option String
  summary : Option String
  activityCount : Option Int
  startdate : Option String
deriving Repr, DecidableEq

structure YearEntry where
  year : Option Int
  quarters : List QuarterData
deriving Repr, DecidableEq

structure QuarterlyAiOutput where
  yearlySummary : List YearEntry
deriving Repr, DecidableEq

def jsTruthyInt (o : Option Int) : Bool :=
  match o with | none => false | some n => n ≠ 0

def jsTruthyStr (o : Option String) : Bool :=
  match o with | none => false | some s => s ≠ ""

/-- The per-quarter record stored under `result[year][quarter]`. -/
structure QSaveData where
  summaryDetails : String
  /-- `JSON.stringify(quarterlyAiOutput)` — kept as the structured value. -/
  summaryJson : QuarterlyAiOutput
  count : Int
  startdate : String
deriving Repr, DecidableEq

/-- `transformQuarterlyStructure`: validates
`yearlySummary[0].year / quarters[0].{quarter, summary, activityCount,
startdate}` and produces `{ [year]: { [quarter]: data } }`; the empty
object (validation failure) is modelled as `none`. -/
def transformQuarterlyStructure (q : QuarterlyAiOutput) :
    Option (Int × String × QSaveData) :=
  match q.yearlySummary.head? with
  | none => none
  | some yearData =>
      match yearData.quarters.head? with
      | none => none
      | some quarterData =>
          if jsTruthyInt yearData.year && jsTruthyStr quarterData.quarter &&
              jsTruthyStr quarterData.summary && quarterData.activityCount.isSome &&
              jsTruthyStr quarterData.startdate then
            some (yearData.year.getD 0, quarterData.quarter.getD "",
              ⟨quarterData.summary.getD "", q, quarterData.activityCount.getD 0,
               quarterData.startdate.getD ""⟩)
          else none

/-! ## The quarterly loop body -/

structure QuarterEnv where
  /-- `openai.beta.assistants.create` for the quarterly assistant. -/
  assistantCreate : Except String Unit
  /-- `generateSummary(null, ...)` with the aggregated prompt. -/
  genSummary : Except String QuarterlyAiOutput
  /-- `createTimileSummarySalesforceRecords` for the quarter. -/
  sfSave : Except String Unit
  /-- `assistants.del` success (failure swallowed). -/
  assistantDeleteOk : Bool

/-- Trace of one quarterly-loop iteration. -/
structure QuarterTrace (α : Type) where
  quarterKey : String
  /-- the `QuarterAggregationInput` serialized into the quarterly prompt
  and submitted to `generateSummary` — present exactly when the
  quarterly Summarizer call was made (assistant creation succeeded). -/
  summarizerInput : Option (Nat × String × List α)
  assistantCreated : Bool
  assistantDeleteAttempted : Bool
deriving Repr, DecidableEq

/-- Per-quarter `catch` bookkeeping:
`Failed processing {quarterKey}: {err}`. -/
def quarterCatch {α : Type} (st : RunState α) (quarterKey err : String) :
    RunState α :=
  { st with
    overallStatus := "Failed"
    failureMessages := st.failureMessages ++
      ["Failed processing " ++ quarterKey ++ ": " ++ err] }

/-- Transform-validation failure branch (AI output obtained but not
persistable): downgrade `Success → "Partial Success"` unless already
`"Failed"`. -/
def quarterTransformFailure {α : Type} (st : RunState α) (quarterKey : String) :
    RunState α :=
  { st with
    overallStatus := if st.overallStatus ≠ "Failed" then "Partial Success"
      else st.overallStatus
    failureMessages := st.failureMessages ++
      ["Failed to transform/validate AI output for " ++ quarterKey ++ "."] }

/-- One iteration of the quarterly loop (`src/index.js` lines
1900–1982) for `quarterKey` with entry
`{ monthSummaries, year, quarter }`. -/
def processQuarter {α : Type} (env : QuarterEnv) (quarterKey : String)
    (entry : QuarterEntry α) (st : RunState α) : RunState α × QuarterTrace α :=
  if entry.monthSummaries.length = 0 then
    -- "Skipping as it has no associated monthly summaries." (continue)
    (st, ⟨quarterKey, none, false, false⟩)
  else
    match env.assistantCreate with
    | .error e =>
        (quarterCatch st quarterKey e, ⟨quarterKey, none, false, false⟩)
    | .ok _ =>
        -- `generateSummary(null, ..., userPromptQuarterly, ...)` where the
        -- prompt embeds `JSON.stringify(monthSummaries, null, 2)`
        let input := some (entry.year, entry.quarter, entry.monthSummaries)
        match env.genSummary with
        | .error e =>
            (quarterCatch st quarterKey e, ⟨quarterKey, input, true, true⟩)
        | .ok quarterlyAiOutput =>
            let transformed := transformQuarterlyStructure quarterlyAiOutput
            -- `transformedQuarter && transformedQuarter[year] &&
            --  transformedQuarter[year][quarter]`
            match transformed with
            | some (y, q, _) =>
                if y = (entry.year : Int) ∧ q = entry.quarter then
                  match env.sfSave with
                  | .error e =>
                      (quarterCatch st quarterKey e, ⟨quarterKey, input, true, true⟩)
                  | .ok _ => (st, ⟨quarterKey, input, true, true⟩)
                else
                  (quarterTransformFailure st quarterKey,
                   ⟨quarterKey, input, true, true⟩)
            | none =>
                (quarterTransformFailure st quarterKey,
                 ⟨quarterKey, input, true, true⟩)

/-- The quarterly phase: iterate `quarterlyInputs` in insertion order,
the `i`-th key using oracle `qenv i`. -/
def runQuarterPhase {α : Type} (qenv : Nat → QuarterEnv) :
    Nat → List (String × QuarterEntry α) → RunState α →
    RunState α × List (QuarterTrace α)
  | _, [], st => (st, [])
  | i, (key, entry) :: rest, st =>
      let r := processQuarter (qenv i) key entry st
      let rest' := runQuarterPhase qenv (i + 1) rest r.1
      (rest'.1, r.2 :: rest'.2)

/-! ## Callback and the full orchestrated run -/

/-- The JSON body POSTed by `sendCallbackResponse` (the POST itself is
best-effort: any axios failure is logged and swallowed, so the function
never throws). -/
structure CallbackBody where
  accountId : String
  loggedinUserId : String
  status : String
  processResult : String
  message : String
deriving Repr, DecidableEq

def sendCallbackResponse (accountId loggedinUserId status message : String) :
    CallbackBody :=
  { accountId := accountId
    loggedinUserId := loggedinUserId
    status := "Completed"
    processResult := status
    message := message }

/-- `finalMessage` assembly and 1000-char truncation. -/
def mkFinalMessage (overallStatus : String) (failureMessages : List String) :
    String :=
  let m := if overallStatus = "Success" then "Summary Processed Successfully"
    else "Processing finished with issues: " ++
      String.intercalate "; " failureMessages
  if 1000 < m.length then jsSubstring m 997 ++ "..." else m

/-- Result of one full `processSummary` run. -/
structure RunResult (α : Type) where
  finalState : RunState α
  /-- every `sendCallbackResponse` invocation made by the run. -/
  callbacks : List CallbackBody
  batches : List (Option (Nat × String) × List Activity)
  monthTraces : List MonthTrace
  quarterTraces : List (QuarterTrace α)

/-- The second-variant `processSummary` (`src/index.js` 1654–2002).

The bulk-query stream delivers `records`; `streamErr = some e` models
the stream's `error` event firing after them (rejecting the stream
promise, so the final flush, the quarterly phase and the success
callback are skipped and the outer `catch` sends the failure callback);
`menv`/`qenv` supply the per-batch and per-quarter external outcomes.
Month batches emitted during streaming are processed synchronously
while the stream is paused; since that processing has no feedback into
the accumulation state, the model replays it after the fold. -/
def processSummary {α : Type} (accountId loggedinUserId : String)
    (records : List SFRecord) (streamErr : Option String)
    (menv : Nat → MonthEnv α) (qenv : Nat → QuarterEnv) : RunResult α :=
  match streamErr with
  | some e =>
      -- batches completed before the error were already processed
      let batches := streamBatchesNoEnd records
      let m := runMonthPhase menv batches (initRunState α)
      -- the stream `error` handler marks the run failed, then the
      -- promise rejection reaches the outer catch
      let st := { m.1 with
        overallStatus := "Failed"
        failureMessages := m.1.failureMessages ++
          ["Salesforce query stream error: " ++ e] }
      let cb := sendCallbackResponse accountId loggedinUserId "Failed"
        ("Critical processing error: " ++ e)
      ⟨st, [cb], batches, m.2, []⟩
  | none =>
      let batches := streamBatches records
      let m := runMonthPhase menv batches (initRunState α)
      let q := runQuarterPhase qenv 0 m.1.quarterlyInputs m.1
      let cb := sendCallbackResponse accountId loggedinUserId q.1.overallStatus
        (mkFinalMessage q.1.overallStatus q.1.failureMessages)
      ⟨q.1, [cb], batches, m.2, q.2⟩

/-! ## JSON serialization of activity batches

`JSON.stringify` of the activity objects, whose keys are created in the
order `Id, Description, Subject, ActivityDate`. -/

def hexDigit (n : Nat) : Char :=
  if n < 10 then Char.ofNat (48 + n) else Char.ofNat (87 + n)

/-- JSON string escaping as performed by `JSON.stringify`. -/
def jsonEscapeChar (c : Char) : List Char :=
  if c = '"' then ['\\', '"']
  else if c = '\\' then ['\\', '\\']
  else if c = '\n' then ['\\', 'n']
  else if c = '\r' then ['\\', 'r']
  else if c = '\t' then ['\\', 't']
  else if c' = (8 : Nat) then ['\\', 'b']
  else if c' = (12 : Nat) then ['\\', 'f']
  else if c' < 32 then
    ['\\', 'u', '0', '0', hexDigit (c' / 16), hexDigit (c' % 16)]
  else [c]
where c' : Nat := c.toNat

def jsonStr (s : String) : String :=
  "\"" ++ String.mk (s.toList.flatMap jsonEscapeChar) ++ "\""

def jsonOptStr (s : Option String) : String :=
  match s with
  | none => "null"
  | some str => jsonStr str

/-- One activity object, compact (`JSON.stringify(activities)`). -/
def serializeActivityCompact (a : Activity) : String :=
  "\x7b\"Id\":" ++ jsonStr a.Id ++
  ",\"Description\":" ++ jsonOptStr a.Description ++
  ",\"Subject\":" ++ jsonOptStr a.Subject ++
  ",\"ActivityDate\":" ++ jsonStr a.ActivityDate ++ "\x7d"

/-- `Array.prototype.join`-style separator join (what
`JSON.stringify` produces between array elements). -/
def joinSep (sep : String) : List String → String
  | [] => ""
  | [s] => s
  | s :: rest => s ++ sep ++ joinSep sep rest

/-- Compact array serialization. -/
def serializeActivitiesCompact (acts : List Activity) : String :=
  "[" ++ joinSep "," (acts.map serializeActivityCompact) ++ "]"

/-- One activity object at array nesting depth 1 of
`JSON.stringify(activities, null, 2)`. -/
def serializeActivityPretty (a : Activity) : String :=
  "  \x7b\n    \"Id\": " ++ jsonStr a.Id ++
  ",\n    \"Description\": " ++ jsonOptStr a.Description ++
  ",\n    \"Subject\": " ++ jsonOptStr a.Subject ++
  ",\n    \"ActivityDate\": " ++ jsonStr a.ActivityDate ++ "\n  \x7d"

/-- `JSON.stringify(activities, null, 2)`. -/
def serializeActivitiesPretty (acts : List Activity) : String :=
  if acts = [] then "[]"
  else "[\n" ++ joinSep ",\n" (acts.map serializeActivityPretty) ++ "\n]"

/-! ## Inline-vs-file delivery decision

Thresholds: the second (streaming) variant of `src/index.js` and
`src/unnamed/part_000` each have their own constants. -/

def DIRECT_INPUT_THRESHOLD : Nat := 1500
def PROMPT_LENGTH_THRESHOLD : Nat := 200000
def DIRECT_INPUT_THRESHOLD_V1 : Nat := 2000
def PROMPT_LENGTH_THRESHOLD_V1 : Nat := 256000

/-- Second variant: `` `${userPrompt}\n\nActivity data:\n```json\n${JSON.stringify(activities)}\n``` `` ``. -/
def potentialFullPrompt (userPrompt : String) (acts : List Activity) : String :=
  userPrompt ++ "\n\nActivity data:\n```json\n" ++
    serializeActivitiesCompact acts ++ "\n```"

/-- First variant: the length check stringifies with `null, 2`
(pretty-printed) and a different wrapper text. -/
def potentialFullPromptV1 (userPrompt : String) (acts : List Activity) : String :=
  userPrompt ++ "\n\nHere is the activity data to process:\n```json\n" ++
    serializeActivitiesPretty acts ++ "\n```"

/-- `part_000`: compact stringify for the length check, first-variant
wrapper text. -/
def potentialFullPromptP0 (userPrompt : String) (acts : List Activity) : String :=
  userPrompt ++ "\n\nHere is the activity data to process:\n```json\n" ++
    serializeActivitiesCompact acts ++ "\n```"

/-- Second-variant delivery decision (`src/index.js` 2030–2056):
`potentialFullPrompt.length < PROMPT_LENGTH_THRESHOLD &&
activities.length < DIRECT_INPUT_THRESHOLD`. -/
def chooseInputMethod (userPrompt : String) (acts : List Activity) : String :=
  if acts.length ≠ 0 then
    if (potentialFullPrompt userPrompt acts).length < PROMPT_LENGTH_THRESHOLD ∧
        acts.length < DIRECT_INPUT_THRESHOLD then "direct JSON"
    else "file upload"
  else "prompt"

/-- First-variant delivery decision (`src/index.js` 628–657):
`potentialFullPrompt.length < PROMPT_LENGTH_THRESHOLD &&
activities.length <= DIRECT_INPUT_THRESHOLD` — note the inclusive
count comparison. -/
def chooseInputMethodV1 (userPrompt : String) (acts : List Activity) : String :=
  if acts.length ≠ 0 then
    if (potentialFullPromptV1 userPrompt acts).length < PROMPT_LENGTH_THRESHOLD_V1 ∧
        acts.length ≤ DIRECT_INPUT_THRESHOLD_V1 then "direct JSON"
    else "file upload"
  else "prompt"

/-- `part_000` delivery decision (lines 645–666): strict comparisons
with the 256000/2000 constants. -/
def chooseInputMethodP0 (userPrompt : String) (acts : List Activity) : String :=
  if acts.length ≠ 0 then
    if (potentialFullPromptP0 userPrompt acts).length < PROMPT_LENGTH_THRESHOLD_V1 ∧
        acts.length < DIRECT_INPUT_THRESHOLD_V1 then "direct JSON"
    else "file upload"
  else "prompt"

/-! ## `generateSummary` (second variant) with resource cleanup

External steps are supplied as an oracle; the `finally` block's
behaviour (always attempt deletion of created resources, treat a 404 on
the remote file as already-deleted, swallow cleanup failures) is
modelled explicitly. -/

inductive RemoteDeleteOutcome
  | ok
  | notFound404
  | failure (msg : String)
deriving Repr, DecidableEq

structure GenEnv (α : Type) where
  /-- `openaiClient.beta.threads.create()`. -/
  threadCreate : Except String Unit
  /-- `fs.writeFile(tempFilePath, activitiesText)`. -/
  fileWrite : Except String Unit
  /-- `openaiClient.files.create(...)`, returning the file id. -/
  fileUpload : Except String String
  /-- `openaiClient.beta.threads.messages.create(...)`. -/
  messageCreate : Except String Unit
  /-- `runs.createAndPoll` plus the forced-function validation and the
  argument parse: a parsed structured result or a thrown error. -/
  runAndParse : Except String α
  /-- `fs.unlink(tempFilePath)` (failure logged, swallowed). -/
  tempDelete : Except String Unit
  /-- `openaiClient.files.del(fileId)`. -/
  remoteDelete : RemoteDeleteOutcome

/-- A cleanup failure the `finally` block logs (a 404 on the remote
delete is deliberately not one). -/
inductive CleanupErr
  | tempErr (msg : String)
  | remoteErr (msg : String)
deriving Repr, DecidableEq

structure GenTrace where
  inputMethod : String
  /-- `tempFilePath` was assigned (a local temp file exists or was at
  least attempted to be written at that path). -/
  tempFileCreated : Bool
  /-- `fileId` was assigned (remote upload succeeded). -/
  fileUploaded : Bool
  tempDeleteAttempted : Bool
  remoteDeleteAttempted : Bool
  cleanupErrors : List CleanupErr
deriving Repr, DecidableEq

/-- The `finally` block of `generateSummary` (`src/index.js`
2173–2209): returns (temp delete attempted, remote delete attempted,
logged cleanup failures). -/
def genCleanup {α : Type} (env : GenEnv α) (tempFileCreated fileUploaded : Bool) :
    Bool × Bool × List CleanupErr :=
  -- `if (tempFilePath) { try { await fs.unlink(...) } catch { log } }`
  let t : Bool × List CleanupErr :=
    if tempFileCreated then
      match env.tempDelete with
      | .ok _ => (true, [])
      | .error e => (true, [.tempErr e])
    else (false, [])
  -- `if (fileId) { try { await files.del(...) } catch { 404 → "already
  --  deleted", otherwise log } }`
  let r : Bool × List CleanupErr :=
    if fileUploaded then
      match env.remoteDelete with
      | .ok => (true, [])
      | .notFound404 => (true, [])  -- "already deleted or not found"
      | .failure e => (true, [.remoteErr e])
    else (false, [])
  (t.1, r.1, t.2 ++ r.2)

/-- Outcome of the `try` body of `generateSummary` before the `finally`
block runs: the pending result plus which resources were created. -/
def genMainBody {α : Type} (env : GenEnv α) (activities : Option (List Activity))
    (userPrompt : String) : Except String α × String × Bool × Bool :=
  match env.threadCreate with
  | .error e => (.error e, "prompt", false, false)
  | .ok _ =>
      match activities with
      | some acts =>
          if acts.length ≠ 0 then
            if (potentialFullPrompt userPrompt acts).length < PROMPT_LENGTH_THRESHOLD ∧
                acts.length < DIRECT_INPUT_THRESHOLD then
              -- direct JSON: no temp file, no upload
              match env.messageCreate with
              | .error e => (.error e, "direct JSON", false, false)
              | .ok _ => (env.runAndParse, "direct JSON", false, false)
            else
              -- file upload: `tempFilePath` is assigned before the write
              match env.fileWrite with
              | .error e => (.error e, "file upload", true, false)
              | .ok _ =>
                  match env.fileUpload with
                  | .error e => (.error e, "file upload", true, false)
                  | .ok _ =>
                      match env.messageCreate with
                      | .error e => (.error e, "file upload", true, true)
                      | .ok _ => (env.runAndParse, "file upload", true, true)
          else
            match env.messageCreate with
            | .error e => (.error e, "prompt", false, false)
            | .ok _ => (env.runAndParse, "prompt", false, false)
      | none =>
          match env.messageCreate with
          | .error e => (.error e, "prompt", false, false)
          | .ok _ => (env.runAndParse, "prompt", false, false)

/-- `generateSummary` with its guaranteed-cleanup `finally` phase: the
result of the `try`/`catch` body is returned unchanged (cleanup
failures are logged, never escalated). -/
def generateSummary {α : Type} (env : GenEnv α) (activities : Option (List Activity))
    (userPrompt : String) : Except String α × GenTrace :=
  let m := genMainBody env activities userPrompt
  let c := genCleanup env m.2.2.1 m.2.2.2
  (m.1, ⟨m.2.1, m.2.2.1, m.2.2.2, c.1, c.2.1, c.2.2⟩)

/-! ## The `/generatesummary` route handlers

The request body's optional JSON fields are modelled by their parse
outcomes (what `JSON.parse` plus the schema-name check would yield);
a JS-falsy (absent or empty) field is `none`.  Required string fields
use `""` for JS-falsy values. -/

/-- Parse outcome of `monthJSON` / `qtrJSON`: `invalid` covers both a
`JSON.parse` throw and a failed schema-name check. -/
inductive SchemaJsonOutcome
  | valid
  | invalid (msg : String)
deriving Repr, DecidableEq

/-- Parse outcome of `summaryMap`. -/
inductive MapJsonOutcome
  | parsed
  | parseError (msg : String)
deriving Repr, DecidableEq

structure GenSummaryRequest where
  authHeader : Option String
  accountId : String
  callbackUrl : String
  userPrompt : String
  userPromptQtr : String
  queryText : String
  loggedinUserId : String
  summaryMap : Option MapJsonOutcome
  monthJSON : Option SchemaJsonOutcome
  qtrJSON : Option SchemaJsonOutcome
deriving Repr, DecidableEq

inductive RouteResponse
  | unauthorized                -- 401
  | badRequest (msg : String)   -- 400
  | serverError (msg : String)  -- 500
  | accepted                    -- 202
deriving Repr, DecidableEq

structure RouteResult where
  response : RouteResponse
  /-- `processSummary(...)` was kicked off (records will be fetched and
  the pipeline runs). -/
  processingStarted : Bool
deriving Repr, DecidableEq

/-- `authHeader.startsWith("Bearer ")`. -/
def bearerOk (h : Option String) : Bool :=
  match h with
  | none => false
  | some s => jsStartsWith s "Bearer "

/-- `authHeader.split(" ")[1]` (empty when absent). -/
def bearerToken (h : Option String) : String :=
  match h with
  | none => ""
  | some s => String.mk ((splitOnChar ' ' s.toList).getD 1 [])

/-- The names self-declared by the two entries of `defaultFunctions`. -/
def defaultFunctionNames : List String :=
  ["generate_monthly_activity_summary", "generate_quarterly_activity_summary"]

/-- The shared JSON-parsing section of both route variants: first
failure produces the 400; `none` (falsy field) skips that field. -/
def parseOptionalJson (req : GenSummaryRequest) : Option String :=
  match req.summaryMap with
  | some (.parseError e) => some e
  | _ =>
      match req.monthJSON with
      | some (.invalid e) => some e
      | _ =>
          match req.qtrJSON with
          | some (.invalid e) => some e
          | _ => none

/-- Required-parameter check
`!accountId || !callbackUrl || !accessToken || !queryText ||
!userPrompt || !userPromptQtr || !loggedinUserId`. -/
def missingRequired (req : GenSummaryRequest) : Bool :=
  req.accountId = "" || req.callbackUrl = "" || bearerToken req.authHeader = "" ||
  req.queryText = "" || req.userPrompt = "" || req.userPromptQtr = "" ||
  req.loggedinUserId = ""

/-- The second-variant handler (`src/index.js` 1544–1642), including
the SOQL structure check and the `ORDER BY ActivityDate ASC` check that
run before the 202 acknowledgement and before `processSummary` is
started. -/
def handleGenerateSummary (req : GenSummaryRequest) : RouteResult :=
  if ¬ bearerOk req.authHeader then ⟨.unauthorized, false⟩
  else if missingRequired req then
    ⟨.badRequest "Missing required parameters", false⟩
  else if ¬ (jsIncludes (jsToLower req.queryText) "select" &&
      jsIncludes (jsToLower req.queryText) "from" &&
      jsIncludes (jsToLower req.queryText) "activitydate") then
    ⟨.badRequest "queryText must be a valid SOQL query including the ActivityDate field.", false⟩
  else if ¬ jsIncludes (jsToLower req.queryText) "order by activitydate asc" then
    ⟨.badRequest "queryText must include ORDER BY ActivityDate ASC for streaming.", false⟩
  else
    match parseOptionalJson req with
    | some e => ⟨.badRequest ("Invalid JSON provided. " ++ e), false⟩
    | none =>
        -- both default schemas exist in `defaultFunctions`
        if defaultFunctionNames.contains "generate_monthly_activity_summary" &&
            defaultFunctionNames.contains "generate_quarterly_activity_summary" then
          ⟨.accepted, true⟩
        else ⟨.serverError "Could not load function schemas.", false⟩

/-- The first-variant handler (`src/index.js` 282–371): identical
except that it performs no validation of `queryText` at all (neither
the SOQL structure check nor the ascending-order check); the handler in
`src/unnamed/part_000` (lines 268–355) is the same. -/
def handleGenerateSummaryV1 (req : GenSummaryRequest) : RouteResult :=
  if ¬ bearerOk req.authHeader then ⟨.unauthorized, false⟩
  else if missingRequired req then
    ⟨.badRequest "Missing required parameters", false⟩
  else
    match parseOptionalJson req with
    | some e => ⟨.badRequest ("Invalid JSON provided. " ++ e), false⟩
    | none =>
        if defaultFunctionNames.contains "generate_monthly_activity_summary" &&
            defaultFunctionNames.contains "generate_quarterly_activity_summary" then
          ⟨.accepted, true⟩
        else ⟨.serverError "Could not load function schemas.", false⟩

/-! ## `createTimileSummarySalesforceRecords` and `getValueByKey`

The summaries argument has shape
`{ year: { periodKey: { ...summaryData } } }`, modelled as nested
insertion-ordered association lists.  Only the routing of each entry to
the bulk-create or bulk-update queue is at stake here; the payload keeps
the identifying fields. -/

structure SummaryMapEntry where
  key : String
  value : String
deriving Repr, DecidableEq

/-- `getValueByKey(recordsArray, searchKey)`: case-insensitive key
lookup returning `null` (`none`) when absent. -/
def getValueByKey (recordsArray : List SummaryMapEntry) (searchKey : String) :
    Option String :=
  match recordsArray.find? (fun item => jsToLower item.key = jsToLower searchKey) with
  | some record => some record.value
  | none => none

/-- The fields of `recordPayload` that identify a queued record. -/
structure RecordPayload where
  Month__c : String
  Year__c : String
  Summary_Category__c : String
  FY_Quarter__c : String
  Account__c : String
deriving Repr, DecidableEq

/-- A queued operation, tagged with the `summaryMapKey` computed for the
entry (the key the source logs alongside the queueing decision). -/
structure QueuedCreate where
  summaryMapKey : String
  payload : RecordPayload
deriving Repr, DecidableEq

structure QueuedUpdate where
  summaryMapKey : String
  Id : String
  payload : RecordPayload
deriving Repr, DecidableEq

/-- The per-period summary data (`summaryJson`/`summary`,
`summaryDetails`, `count`, `startdate`) — opaque for queue routing. -/
structure PeriodSummaryData where
  summaryJson : Option String
  summary : Option String
  summaryDetails : Option String
  count : Option Int
  startdate : Option String
deriving Repr, DecidableEq

/-- `summaryMapKey` derivation: `"Q1 2024"` for Quarterly,
`"Jan 2024"` (3-char month prefix) for Monthly. -/
def mkSummaryMapKey (summaryCategory : String) (year : Nat) (periodKey : String) :
    String :=
  let fyQuarterValue := if summaryCategory = "Quarterly" then periodKey else ""
  let monthValue := if summaryCategory = "Monthly" then periodKey else ""
  let shortMonth := if monthValue ≠ "" then jsSubstring monthValue 3 else ""
  if summaryCategory = "Quarterly" then fyQuarterValue ++ " " ++ toString year
  else shortMonth ++ " " ++ toString year

/-- Routing of one `(year, periodKey)` entry. -/
def queueEntry (parentId summaryCategory : String)
    (summaryRecordsMap : List SummaryMapEntry) (year : Nat) (periodKey : String) :
    List QueuedCreate × List QueuedUpdate :=
  let monthValue := if summaryCategory = "Monthly" then periodKey else ""
  let fyQuarterValue := if summaryCategory = "Quarterly" then periodKey else ""
  let summaryMapKey := mkSummaryMapKey summaryCategory year periodKey
  let existingRecordId := getValueByKey summaryRecordsMap summaryMapKey
  let recordPayload : RecordPayload :=
    { Month__c := monthValue
      Year__c := toString year
      Summary_Category__c := summaryCategory
      FY_Quarter__c := fyQuarterValue
      Account__c := parentId }
  -- `if (!recordPayload.Account__c || !Summary_Category__c || !Year__c) continue`
  if recordPayload.Account__c = "" ∨ recordPayload.Summary_Category__c = "" ∨
      recordPayload.Year__c = "" then ([], [])
  else
    match existingRecordId with
    | some id =>
        -- `if (existingRecordId)`: JS truthiness, an empty id is falsy
        if id ≠ "" then ([], [⟨summaryMapKey, id, recordPayload⟩])
        else ([⟨summaryMapKey, recordPayload⟩], [])
    | none => ([⟨summaryMapKey, recordPayload⟩], [])

/-- `createTimileSummarySalesforceRecords`: iterate the nested summary
structure and queue each entry for bulk insert or bulk update.  (The
two bulk DML calls afterwards run with `allOrNone: false`; their
outcomes do not influence the queueing.) -/
def createTimileSummarySalesforceRecords
    (summaries : List (Nat × List (String × PeriodSummaryData)))
    (parentId summaryCategory : String)
    (summaryRecordsMap : List SummaryMapEntry) :
    List QueuedCreate × List QueuedUpdate :=
  summaries.foldl
    (fun acc (yearEntry : Nat × List (String × PeriodSummaryData)) =>
      yearEntry.2.foldl
        (fun acc periodEntry =>
          let r := queueEntry parentId summaryCategory summaryRecordsMap
            yearEntry.1 periodEntry.1
          (acc.1 ++ r.1, acc.2 ++ r.2))
        acc)
    ([], [])

/-! ## Derived definitions used in the statements -/

/-- The first error raised inside the `try` block of
`processAndSaveMonthBatch` (assistant creation, `generateSummary`, or
the Salesforce save), if any. -/
def monthEnvError {α : Type} (env : MonthEnv α) : Option String :=
  match env.assistantCreate with
  | .error e => some e
  | .ok _ =>
      match env.genSummary with
      | .error e => some e
      | .ok _ =>
          match env.sfSave with
          | .error e => some e
          | .ok _ => none

/-- Whether `transformQuarterlyStructure` produced an entry for the
loop's `year` and `quarter` — the condition
`transformedQuarter && transformedQuarter[year] &&
transformedQuarter[year][quarter]` of the quarterly loop. -/
def transformedValidFor {α : Type} (entry : QuarterEntry α)
    (out : QuarterlyAiOutput) : Bool :=
  match transformQuarterlyStructure out with
  | some (y, q, _) => decide (y = (entry.year : Int)) && decide (q = entry.quarter)
  | none => false

/-- The three values `overallStatus` (hence the callback's
`processResult` on the normal path) can take. -/
def statusOK (s : String) : Prop :=
  s = "Success" ∨ s = "Failed" ∨ s = "Partial Success"

/-- The `(year, periodKey)` pairs visited by the nested `for` loops of
`createTimileSummarySalesforceRecords`, in iteration order. -/
def periodEntries (summaries : List (Nat × List (String × PeriodSummaryData))) :
    List (Nat × String) :=
  summaries.flatMap (fun ye => ye.2.map (fun pe => (ye.1, pe.1)))

/-! ## Derived views of the stream accumulator -/

/-- The records with a usable, parseable `ActivityDate`, paired with
their `(year, month-name)` period and their truncated form — exactly
the records the `record` handler appends rather than drops. -/
def validParsed (records : List SFRecord) : List ((Nat × String) × Activity) :=
  records.filterMap (fun r =>
    match parsePeriod r, r.ActivityDate with
    | some p, some ds => some (p, truncAct r ds)
    | _, _ => none)

def validPeriods (records : List SFRecord) : List (Nat × String) :=
  (validParsed records).map Prod.fst

/-- The parsed `(year, month, day)` dates of the valid records, in
input order. -/
def validDates (records : List SFRecord) : List (Nat × Nat × Nat) :=
  records.filterMap (fun r =>
    match r.ActivityDate with
    | some s => if s = "" then none else parseActivityDate s
    | none => none)

/-- Calendar order on parsed dates. -/
def dateLe (a b : Nat × Nat × Nat) : Prop :=
  a.1 < b.1 ∨ (a.1 = b.1 ∧ (a.2.1 < b.2.1 ∨ (a.2.1 = b.2.1 ∧ a.2.2 ≤ b.2.2)))

instance : DecidableRel dateLe := fun a b =>
  inferInstanceAs (Decidable (a.1 < b.1 ∨ (a.1 = b.1 ∧
    (a.2.1 < b.2.1 ∨ (a.2.1 = b.2.1 ∧ a.2.2 ≤ b.2.2)))))

/-- Month index of a period's month name (0 for unknown names; the
names produced by the stream are always known). -/
def monthIdx (name : String) : Nat :=
  (monthMap (jsToLower name)).getD 0

/-- Chronological order on `(year, month-name)` periods. -/
def periodLe (p q : Nat × String) : Prop :=
  p.1 < q.1 ∨ (p.1 = q.1 ∧ monthIdx p.2 ≤ monthIdx q.2)

/-- A period whose month name is one of the twelve long names. -/
def ValidPeriod (p : Nat × String) : Prop :=
  ∃ i, i < 12 ∧ p.2 = monthLongName i

def dateToPeriod (d : Nat × Nat × Nat) : Nat × String :=
  (d.1, monthLongName (d.2.1 - 1))

/-- The maximal runs of adjacent equal-period items: the month batches
the accumulator produces when no run reaches the sub-batch size. -/
def chunkRuns : List ((Nat × String) × Activity) →
    List ((Nat × String) × List Activity)
  | [] => []
  | (p, a) :: rest =>
      match chunkRuns rest with
      | [] => [(p, [a])]
      | (q, g) :: gs =>
          if p = q then (p, a :: g) :: gs else (p, [a]) :: (q, g) :: gs

/-- Folding the accumulation core over period-tagged activities. -/
def coreFold (l : List ((Nat × String) × Activity)) (c : CoreState) : CoreState :=
  l.foldl (fun c pa => coreStep c pa.1 pa.2) c

/-- Re-flattening a run decomposition. -/
def flattenRuns (gs : List ((Nat × String) × List Activity)) :
    List ((Nat × String) × Activity) :=
  gs.flatMap (fun g => g.2.map (fun a => (g.1, a)))

/-! ## Derived views of the month → quarter aggregation -/

/-- The quarterly contribution `(quarterKey, year, quarter, aiOutput)`
that `processAndSaveMonthBatch` pushes onto `quarterlyInputs` for a
batch, when the batch is fully processed (non-empty, month name maps,
assistant created, AI call and Salesforce save both succeed). -/
def monthContribution {α : Type} (env : MonthEnv α)
    (label : Option (Nat × String)) (acts : List Activity) :
    Option (String × Nat × String × α) :=
  match label with
  | none => none
  | some (year, month) =>
      if acts.length = 0 then none
      else
        match monthMap (jsToLower month) with
        | none => none
        | some monthIndex =>
            match env.assistantCreate, env.genSummary, env.sfSave with
            | .ok _, .ok out, .ok _ =>
                let quarter := getQuarterFromMonthIndex monthIndex
                some (mkQuarterKey year quarter, year, quarter, out)
            | _, _, _ => none

/-- The contributions of a batch list processed with oracles
`menv i, menv (i+1), ...`, in batch order. -/
def contributionsFrom {α : Type} (menv : Nat → MonthEnv α) :
    Nat → List (Option (Nat × String) × List Activity) →
    List (String × Nat × String × α)
  | _, [] => []
  | i, b :: rest =>
      match monthContribution (menv i) b.1 b.2 with
      | some c => c :: contributionsFrom menv (i + 1) rest
      | none => contributionsFrom menv (i + 1) rest

def contributions {α : Type} (menv : Nat → MonthEnv α)
    (batches : List (Option (Nat × String) × List Activity)) :
    List (String × Nat × String × α) :=
  contributionsFrom menv 0 batches

/-- The AI outputs contributed for quarter key `key`, in contribution
order. -/
def gatherFor {α : Type} (key : String) :
    List (String × Nat × String × α) → List α
  | [] => []
  | c :: rest =>
      if c.1 = key then c.2.2.2 :: gatherFor key rest else gatherFor key rest

/-- Folding the contributions through `pushQuarterInput`. -/
def aggregateQ {α : Type} :
    List (String × Nat × String × α) → List (String × QuarterEntry α) →
    List (String × QuarterEntry α)
  | [], qs => qs
  | c :: cs, qs => aggregateQ cs (pushQuarterInput c.1 c.2.1 c.2.2.1 c.2.2.2 qs)

/-- The traces of the quarterly loop (which are independent of the run
state at each iteration). -/
def quarterTraces {α : Type} (qenv : Nat → QuarterEnv) :
    Nat → List (String × QuarterEntry α) → List (QuarterTrace α)
  | _, [] => []
  | i, (key, entry) :: rest =>
      (processQuarter (qenv i) key entry (initRunState α)).2 ::
        quarterTraces qenv (i + 1) rest

/-- Invariant tying the `quarterlyInputs` association list to the
contributions already processed. -/
def quarterAggInv {α : Type} (processed : List (String × Nat × String × α))
    (qs : List (String × QuarterEntry α)) : Prop :=
  (qs.map Prod.fst).Nodup ∧
  (∀ ke ∈ qs, ke.2.monthSummaries = gatherFor ke.1 processed ∧
    ke.2.monthSummaries ≠ []) ∧
  (∀ k, k ∉ qs.map Prod.fst → gatherFor k processed = []) ∧
  (∀ x ∈ processed, x.1 ∈ qs.map Prod.fst)

/-! ## Sample inputs used by witnesses -/

def sampleActivity : Activity :=
  ⟨"00T000000000001", none, none, "2024-01-15"⟩

/-- A month-batch environment whose `generateSummary` call fails. -/
def sampleFailMonthEnv : MonthEnv Unit :=
  ⟨.ok (), .error "AI run failed", .ok (), true⟩

/-- A `generateSummary` environment whose remote-file deletion hits a
404. -/
def sampleGenEnv : GenEnv Unit :=
  ⟨.ok (), .ok (), .ok "file-1", .ok (), .ok (), .ok (), .notFound404⟩

/-- A stream record dated January 2024. -/
def sampleRecordJan : SFRecord :=
  ⟨"00T000000000001", some "2024-01-15", none, none⟩

/-- A month-batch environment in which every external step succeeds. -/
def sampleOkMonthEnv : MonthEnv Unit :=
  ⟨.ok (), .ok (), .ok (), true⟩

/-- A quarterly AI output that fails structural validation
(`yearlySummary` empty, so `transformQuarterlyStructure` yields the
empty object). -/
def sampleInvalidQuarterOutput : QuarterlyAiOutput := ⟨[]⟩

/-- A quarter environment whose AI call succeeds but returns the
structurally invalid output above. -/
def sampleInvalidQuarterEnv : QuarterEnv :=
  ⟨.ok (), .ok sampleInvalidQuarterOutput, .ok (), true⟩

def sampleQuarterEntry : QuarterEntry Unit := ⟨[()], 2024, "Q1"⟩

/-- An activity with minimal field content (short id, no description or
subject). -/
def tinyActivity : Activity := ⟨"a", none, none, "2024-01-15"⟩

def samplePeriodData : PeriodSummaryData :=
  ⟨some "{}", none, some "<h1>Q1</h1>", some 3, some "2024-01-01"⟩

/-- A persister input containing one quarterly entry for Q1 2024. -/
def sampleSummaries : List (Nat × List (String × PeriodSummaryData)) :=
  [(2024, [("Q1", samplePeriodData)])]

/-- An existing-record lookup containing the Q1 2024 key. -/
def sampleSummaryMap : List SummaryMapEntry :=
  [⟨"Q1 2024", "a0X000000000001"⟩]

/-- A fully-populated request whose SOQL query sorts DESCENDING by
activity date (so it does not sort ascending, and its lowercased text
does not contain the `order by activitydate asc` clause). -/
def descQueryRequest : GenSummaryRequest :=
  { authHeader := some "Bearer 00Dtoken"
    accountId := "001A"
    callbackUrl := "https://example.com/cb"
    userPrompt := "monthly {{YearMonth}}"
    userPromptQtr := "quarterly {{Quarter}} {{Year}}"
    queryText := "SELECT Id, ActivityDate FROM Task ORDER BY ActivityDate DESC"
    loggedinUserId := "005U"
    summaryMap := none
    monthJSON := none
    qtrJSON := none }

/-- A small ascending-date stream spanning two months (January and
February 2024), with one record dropped for an unparseable date. -/
def c2records : List SFRecord :=
  [⟨"00T000000000010", some "2024-01-15", some "call", none⟩,
   ⟨"00T000000000011", some "2024-01-20", none, some "mail"⟩,
   ⟨"00T000000000012", some "not-a-date", none, none⟩,
   ⟨"00T000000000013", some "2024-02-03", none, none⟩]

/-! # Theorems -/

/-- C1: For every pipeline run of `processSummary` — any stream of
records, any stream outcome (clean end or stream error), and any
per-month and per-quarter external outcomes, including arbitrarily many
failures — exactly one terminal Notifier call (`sendCallbackResponse`)
occurs. -/
theorem notifier_called_exactly_once {α : Type} (accountId loggedinUserId : String)
    (records : List SFRecord) (streamErr : Option String)
    (menv : Nat → MonthEnv α) (qenv : Nat → QuarterEnv) :
    (processSummary accountId loggedinUserId records streamErr menv qenv).callbacks.length
      = 1 := by
  cases streamErr <;> rfl

/-- C10: A record delivered to the bulk-query `record` handler while the
stream-paused flag is set is discarded entirely — the accumulation state
(current month batch, emitted batches, current period) is untouched, so
the record is neither buffered nor appears in any emitted batch or
persisted summary — yet the total received-record counter is still
incremented for it. -/
theorem paused_record_discarded_but_counted (st : StreamState) (r : SFRecord) :
    handleRecord true st r = { st with recordCount := st.recordCount + 1 } := by
  rfl

/-! ## Month-batch failure isolation (C3) -/

theorem processAndSaveMonthBatch_trace {α : Type} (env : MonthEnv α)
    (label : Option (Nat × String)) (acts : List Activity) (st : RunState α) :
    (processAndSaveMonthBatch env label acts st).2.label = label ∧
    (processAndSaveMonthBatch env label acts st).2.size = acts.length := by
  cases label with
  | none => simp [processAndSaveMonthBatch]
  | some p =>
      obtain ⟨y, m⟩ := p
      simp only [processAndSaveMonthBatch]
      split
      · next h => simp [h]
      · split
        · simp
        · cases env.assistantCreate with
          | error e => simp
          | ok _ =>
              cases env.genSummary with
              | error e => simp
              | ok out =>
                  cases env.sfSave with
                  | error e => simp
                  | ok _ => simp

theorem runMonthPhase_go_traces {α : Type} (menv : Nat → MonthEnv α) :
    ∀ (batches : List (Option (Nat × String) × List Activity)) (i : Nat)
      (st : RunState α),
      (runMonthPhase.go menv i batches st).2.map (fun t => (t.label, t.size)) =
        batches.map (fun b => (b.1, b.2.length))
  | [], _, _ => rfl
  | b :: rest, i, st => by
      simp only [runMonthPhase.go, List.map_cons]
      refine congrArg₂ _ ?_ (runMonthPhase_go_traces menv rest (i + 1) _)
      have h := processAndSaveMonthBatch_trace (menv i) b.1 b.2 st
      simp [h.1, h.2]

/-- C3: month-batch failures are isolated to their batch.  (1) For every
run of the month phase under arbitrary per-batch external outcomes —
including any number of failures — every emitted batch is still
attempted, in order (the trace has one entry per batch, with its label
and size), so no failure aborts the stream of batches.  (2) A failing
batch is caught at batch scope and recorded exactly by `monthCatch`:
`overallStatus` is downgraded to `"Failed"` and a
`Failed processing {month} {year}: {error}` message is appended, leaving
the rest of the state to continue. -/
theorem month_failure_does_not_abort_run :
    (∀ (α : Type) (menv : Nat → MonthEnv α)
        (batches : List (Option (Nat × String) × List Activity)) (st : RunState α),
        (runMonthPhase menv batches st).2.map (fun t => (t.label, t.size)) =
          batches.map (fun b => (b.1, b.2.length))) ∧
    (∀ (α : Type) (env : MonthEnv α) (year : Nat) (month : String)
        (acts : List Activity) (st : RunState α) (e : String),
        acts.length ≠ 0 → (monthMap (jsToLower month)).isSome →
        monthEnvError env = some e →
        (processAndSaveMonthBatch env (some (year, month)) acts st).1 =
          monthCatch st month year e) := by
  constructor
  · intro α menv batches st
    exact runMonthPhase_go_traces menv batches 0 st
  · intro α env year month acts st e hne hmm herr
    obtain ⟨idx, hidx⟩ := Option.isSome_iff_exists.mp hmm
    simp only [processAndSaveMonthBatch, hidx, if_neg hne]
    unfold monthEnvError at herr
    cases hc : env.assistantCreate with
    | error e1 => rw [hc] at herr; simp at herr; simp [herr]
    | ok _ =>
        rw [hc] at herr
        cases hg : env.genSummary with
        | error e2 => rw [hg] at herr; simp at herr; simp [herr]
        | ok out =>
            rw [hg] at herr
            cases hs : env.sfSave with
            | error e3 => rw [hs] at herr; simp at herr; simp [herr]
            | ok _ => rw [hs] at herr; simp at herr

/-! ## Guaranteed resource cleanup (C6) -/

theorem genCleanup_attempts {α : Type} (env : GenEnv α) (t f : Bool) :
    (genCleanup env t f).1 = t ∧ (genCleanup env t f).2.1 = f := by
  cases t <;> cases f <;>
    simp only [genCleanup] <;>
    cases env.tempDelete <;> cases env.remoteDelete <;> simp

theorem genCleanup_notFound_no_remote_error {α : Type} (env : GenEnv α)
    (t f : Bool) (m : String) (h : env.remoteDelete = .notFound404) :
    CleanupErr.remoteErr m ∉ (genCleanup env t f).2.2 := by
  cases t <;> cases f <;>
    simp only [genCleanup, h] <;>
    cases env.tempDelete <;> simp

theorem genMainBody_congr {α : Type} (env env' : GenEnv α)
    (acts : Option (List Activity)) (up : String)
    (h1 : env.threadCreate = env'.threadCreate)
    (h2 : env.fileWrite = env'.fileWrite)
    (h3 : env.fileUpload = env'.fileUpload)
    (h4 : env.messageCreate = env'.messageCreate)
    (h5 : env.runAndParse = env'.runAndParse) :
    genMainBody env acts up = genMainBody env' acts up := by
  simp only [genMainBody, h1, h2, h3, h4, h5]

theorem processAndSaveMonthBatch_congr {α : Type} (env env' : MonthEnv α)
    (label : Option (Nat × String)) (acts : List Activity) (st : RunState α)
    (h1 : env.assistantCreate = env'.assistantCreate)
    (h2 : env.genSummary = env'.genSummary)
    (h3 : env.sfSave = env'.sfSave) :
    processAndSaveMonthBatch env label acts st =
      processAndSaveMonthBatch env' label acts st := by
  simp only [processAndSaveMonthBatch, h1, h2, h3]

theorem monthBatch_assistant_cleanup {α : Type} (env : MonthEnv α)
    (label : Option (Nat × String)) (acts : List Activity) (st : RunState α) :
    (processAndSaveMonthBatch env label acts st).2.assistantDeleteAttempted =
      (processAndSaveMonthBatch env label acts st).2.assistantCreated := by
  cases label with
  | none => simp [processAndSaveMonthBatch]
  | some p =>
      obtain ⟨y, m⟩ := p
      simp only [processAndSaveMonthBatch]
      split
      · simp
      · split
        · simp
        · cases env.assistantCreate with
          | error e => simp
          | ok _ =>
              cases env.genSummary with
              | error e => simp
              | ok out =>
                  cases env.sfSave with
                  | error e => simp
                  | ok _ => simp

theorem quarter_assistant_cleanup {α : Type} (env : QuarterEnv) (key : String)
    (entry : QuarterEntry α) (st : RunState α) :
    (processQuarter env key entry st).2.assistantDeleteAttempted =
      (processQuarter env key entry st).2.assistantCreated := by
  simp only [processQuarter]
  split
  · simp
  · cases env.assistantCreate with
    | error e => simp
    | ok _ =>
        cases env.genSummary with
        | error e => simp
        | ok out =>
            cases htr : transformQuarterlyStructure out with
            | none => simp [htr]
            | some t =>
                obtain ⟨y, q, d⟩ := t
                simp only [htr]
                split
                · cases env.sfSave with
                  | error e => simp
                  | ok _ => simp
                · simp

/-- C6: guaranteed-release cleanup.  (1) `generateSummary` always runs
its cleanup phase: the local temp file deletion is attempted exactly
when a temp file was created and the remote deletion exactly when a
file was uploaded, on every exit path (success or thrown error).
(2) A 404 on the remote deletion is treated as already-deleted success
and never recorded as a cleanup failure.  (3) Cleanup outcomes never
change `generateSummary`'s result (never escalated to the caller).
(4)/(5) The per-call assistant resource of a month batch and of a
quarter is deleted exactly when it was created, on every exit path of
that batch's processing.  (6) An assistant-deletion failure does not
change the batch outcome. -/
theorem cleanup_always_runs :
    (∀ (α : Type) (env : GenEnv α) (acts : Option (List Activity)) (up : String),
        (generateSummary env acts up).2.tempDeleteAttempted =
          (generateSummary env acts up).2.tempFileCreated ∧
        (generateSummary env acts up).2.remoteDeleteAttempted =
          (generateSummary env acts up).2.fileUploaded) ∧
    (∀ (α : Type) (env : GenEnv α) (acts : Option (List Activity)) (up m : String),
        env.remoteDelete = .notFound404 →
        CleanupErr.remoteErr m ∉ (generateSummary env acts up).2.cleanupErrors) ∧
    (∀ (α : Type) (env : GenEnv α) (acts : Option (List Activity)) (up : String)
        (td : Except String Unit) (rd : RemoteDeleteOutcome),
        (generateSummary { env with tempDelete := td, remoteDelete := rd } acts up).1 =
          (generateSummary env acts up).1) ∧
    (∀ (α : Type) (env : MonthEnv α) (label : Option (Nat × String))
        (acts : List Activity) (st : RunState α),
        (processAndSaveMonthBatch env label acts st).2.assistantDeleteAttempted =
          (processAndSaveMonthBatch env label acts st).2.assistantCreated) ∧
    (∀ (α : Type) (env : QuarterEnv) (key : String) (entry : QuarterEntry α)
        (st : RunState α),
        (processQuarter env key entry st).2.assistantDeleteAttempted =
          (processQuarter env key entry st).2.assistantCreated) ∧
    (∀ (α : Type) (env : MonthEnv α) (b : Bool) (label : Option (Nat × String))
        (acts : List Activity) (st : RunState α),
        processAndSaveMonthBatch { env with assistantDeleteOk := b } label acts st =
          processAndSaveMonthBatch env label acts st) := by
  refine ⟨?_, ?_, ?_, ?_, ?_, ?_⟩
  · intro α env acts up
    exact ⟨(genCleanup_attempts env (genMainBody env acts up).2.2.1
              (genMainBody env acts up).2.2.2).1,
           (genCleanup_attempts env (genMainBody env acts up).2.2.1
              (genMainBody env acts up).2.2.2).2⟩
  · intro α env acts up m h
    exact genCleanup_notFound_no_remote_error env (genMainBody env acts up).2.2.1
      (genMainBody env acts up).2.2.2 m h
  · intro α env acts up td rd
    show (genMainBody { env with tempDelete := td, remoteDelete := rd } acts up).1 =
      (genMainBody env acts up).1
    exact congrArg Prod.fst
      (genMainBody_congr { env with tempDelete := td, remoteDelete := rd } env acts up
        rfl rfl rfl rfl rfl)
  · intro α env label acts st
    exact monthBatch_assistant_cleanup env label acts st
  · intro α env key entry st
    exact quarter_assistant_cleanup env key entry st
  · intro α env b label acts st
    exact processAndSaveMonthBatch_congr _ env label acts st rfl rfl rfl

/-- Witness for C6 at a concrete environment whose remote deletion
404s. -/
theorem cleanup_always_runs_witness :
    sampleGenEnv.remoteDelete = .notFound404 ∧
    CleanupErr.remoteErr "gone" ∉
      (generateSummary sampleGenEnv (some [sampleActivity]) "p").2.cleanupErrors :=
  ⟨rfl, cleanup_always_runs.2.1 Unit sampleGenEnv (some [sampleActivity]) "p" "gone" rfl⟩

/-! ## Quarterly status downgrades and the callback status set (C5) -/

theorem processAndSaveMonthBatch_status {α : Type} (env : MonthEnv α)
    (label : Option (Nat × String)) (acts : List Activity) (st : RunState α) :
    (processAndSaveMonthBatch env label acts st).1.overallStatus =
      st.overallStatus ∨
    (processAndSaveMonthBatch env label acts st).1.overallStatus = "Failed" := by
  cases label with
  | none => simp [processAndSaveMonthBatch]
  | some p =>
      obtain ⟨y, m⟩ := p
      simp only [processAndSaveMonthBatch]
      split
      · simp
      · split
        · simp
        · cases env.assistantCreate with
          | error e => simp [monthCatch]
          | ok _ =>
              cases env.genSummary with
              | error e => simp [monthCatch]
              | ok out =>
                  cases env.sfSave with
                  | error e => simp [monthCatch]
                  | ok _ => simp

theorem processQuarter_status {α : Type} (env : QuarterEnv) (key : String)
    (entry : QuarterEntry α) (st : RunState α) :
    (processQuarter env key entry st).1.overallStatus = st.overallStatus ∨
    (processQuarter env key entry st).1.overallStatus = "Failed" ∨
    (processQuarter env key entry st).1.overallStatus = "Partial Success" := by
  simp only [processQuarter]
  split
  · simp
  · cases env.assistantCreate with
    | error e => simp [quarterCatch]
    | ok _ =>
        cases env.genSummary with
        | error e => simp [quarterCatch]
        | ok out =>
            cases htr : transformQuarterlyStructure out with
            | none =>
                simp only [htr, quarterTransformFailure]
                split <;> simp
            | some t =>
                obtain ⟨y, q, d⟩ := t
                simp only [htr]
                split
                · cases env.sfSave with
                  | error e => simp [quarterCatch]
                  | ok _ => simp
                · simp only [quarterTransformFailure]
                  split <;> simp

theorem runMonthPhase_go_status {α : Type} (menv : Nat → MonthEnv α) :
    ∀ (batches : List (Option (Nat × String) × List Activity)) (i : Nat)
      (st : RunState α), statusOK st.overallStatus →
      statusOK (runMonthPhase.go menv i batches st).1.overallStatus
  | [], _, _, h => h
  | b :: rest, i, st, h => by
      simp only [runMonthPhase.go]
      apply runMonthPhase_go_status menv rest (i + 1)
      rcases processAndSaveMonthBatch_status (menv i) b.1 b.2 st with he | he <;>
        rw [he]
      · exact h
      · exact Or.inr (Or.inl rfl)

theorem runQuarterPhase_status {α : Type} (qenv : Nat → QuarterEnv) :
    ∀ (qs : List (String × QuarterEntry α)) (i : Nat) (st : RunState α),
      statusOK st.overallStatus →
      statusOK (runQuarterPhase qenv i qs st).1.overallStatus
  | [], _, _, h => h
  | (key, entry) :: rest, i, st, h => by
      simp only [runQuarterPhase]
      apply runQuarterPhase_status qenv rest (i + 1)
      rcases processQuarter_status (qenv i) key entry st with he | he | he <;> rw [he]
      · exact h
      · exact Or.inr (Or.inl rfl)
      · exact Or.inr (Or.inr rfl)

/-- C5 (amended: the partial-success literal carries a space —
`"Partial Success"`).  (1) When the quarterly AI call succeeds but
`transformQuarterlyStructure` yields no entry for the loop's year and
quarter, `overallStatus` is downgraded to `"Partial Success"` unless it
is already `"Failed"`.  (2) An outright AI failure for a quarter
(assistant creation or the AI round-trip throwing) downgrades the status
to `"Failed"`.  (3) The `processResult` delivered in the callback body
is always one of `"Success"`, `"Failed"`, `"Partial Success"`. -/
theorem quarterly_status_downgrades :
    (∀ (α : Type) (env : QuarterEnv) (key : String) (entry : QuarterEntry α)
        (st : RunState α) (out : QuarterlyAiOutput),
        entry.monthSummaries.length ≠ 0 →
        env.assistantCreate = .ok () →
        env.genSummary = .ok out →
        transformedValidFor entry out = false →
        (processQuarter env key entry st).1.overallStatus =
          (if st.overallStatus = "Failed" then "Failed" else "Partial Success")) ∧
    (∀ (α : Type) (env : QuarterEnv) (key : String) (entry : QuarterEntry α)
        (st : RunState α) (e : String),
        entry.monthSummaries.length ≠ 0 →
        (env.assistantCreate = .error e ∨
          (env.assistantCreate = .ok () ∧ env.genSummary = .error e)) →
        (processQuarter env key entry st).1.overallStatus = "Failed") ∧
    (∀ (α : Type) (accountId loggedinUserId : String) (records : List SFRecord)
        (streamErr : Option String) (menv : Nat → MonthEnv α)
        (qenv : Nat → QuarterEnv),
        ∀ cb ∈ (processSummary accountId loggedinUserId records streamErr
            menv qenv).callbacks, statusOK cb.processResult) := by
  refine ⟨?_, ?_, ?_⟩
  · intro α env key entry st out hne hca hgs hval
    simp only [processQuarter, if_neg hne, hca, hgs]
    cases htr : transformQuarterlyStructure out with
    | none =>
        simp only [quarterTransformFailure]
        by_cases hf : st.overallStatus = "Failed" <;> simp [hf]
    | some t =>
        obtain ⟨y, q, d⟩ := t
        simp only [transformedValidFor, htr, Bool.and_eq_false_iff,
          decide_eq_false_iff_not] at hval
        have hnot : ¬(y = (entry.year : Int) ∧ q = entry.quarter) := by
          rcases hval with h | h
          · exact fun hc => h hc.1
          · exact fun hc => h hc.2
        simp only [if_neg hnot, quarterTransformFailure]
        by_cases hf : st.overallStatus = "Failed" <;> simp [hf]
  · intro α env key entry st e hne hfail
    rcases hfail with hca | ⟨hca, hgs⟩
    · simp [processQuarter, if_neg hne, hca, quarterCatch]
    · simp [processQuarter, if_neg hne, hca, hgs, quarterCatch]
  · intro α accountId loggedinUserId records streamErr menv qenv cb hcb
    cases streamErr with
    | some e =>
        simp only [processSummary, List.mem_singleton] at hcb
        subst hcb
        exact Or.inr (Or.inl rfl)
    | none =>
        simp only [processSummary, List.mem_singleton] at hcb
        subst hcb
        exact runQuarterPhase_status qenv _ 0 _
          (runMonthPhase_go_status menv _ 0 _ (Or.inl rfl))

/-- Witness for C5 at a concrete quarter whose AI output fails
structural validation while the run is not yet failed. -/
theorem quarterly_status_witness :
    sampleQuarterEntry.monthSummaries.length ≠ 0 ∧
    transformedValidFor sampleQuarterEntry sampleInvalidQuarterOutput = false ∧
    (processQuarter sampleInvalidQuarterEnv "2024-Q1" sampleQuarterEntry
        (initRunState Unit)).1.overallStatus =
      (if (initRunState Unit).overallStatus = "Failed" then "Failed"
       else "Partial Success") :=
  ⟨by decide, by decide,
   quarterly_status_downgrades.1 Unit sampleInvalidQuarterEnv "2024-Q1"
     sampleQuarterEntry (initRunState Unit) sampleInvalidQuarterOutput
     (by decide) rfl rfl (by decide)⟩

/-- C5 counterexample to the claim as stated: a concrete run (one
January 2024 record processed successfully, quarterly AI output
structurally invalid) delivers `processResult = "Partial Success"`,
which is none of the literals `Success`, `Failed`, `PartialSuccess`
enumerated by the claim. -/
theorem partial_success_literal_counterexample :
    ((processSummary (α := Unit) "001A" "005U" [sampleRecordJan] none
        (fun _ => sampleOkMonthEnv) (fun _ => sampleInvalidQuarterEnv)).callbacks.map
        CallbackBody.processResult) = ["Partial Success"] ∧
    "Partial Success" ≠ "Success" ∧ "Partial Success" ≠ "Failed" ∧
    "Partial Success" ≠ "PartialSuccess" :=
  ⟨by decide, by decide, by decide, by decide⟩

/-! ## Inline-vs-file delivery thresholds (C4) -/

theorem joinSep_replicate_length (sep s : String) :
    ∀ n : Nat, (joinSep sep (List.replicate (n + 1) s)).length =
      (n + 1) * s.length + n * sep.length
  | 0 => by simp [joinSep]
  | n + 1 => by
      rw [List.replicate_succ, List.replicate_succ]
      show (s ++ sep ++ joinSep sep (s :: List.replicate n s)).length = _
      rw [← List.replicate_succ]
      simp only [String.length_append]
      rw [joinSep_replicate_length sep s n]
      ring

/-- C4 (amended): in the second (streaming) variant and in `part_000`,
inline delivery requires both the record count and the combined prompt
length to be strictly below their thresholds, so equality on either
routes to file upload; the first variant, however, compares the count
inclusively (`<=`), so only the length threshold is a strict bound
there and a batch of exactly the count threshold may still go inline. -/
theorem inline_requires_strictly_below_thresholds :
    (∀ (up : String) (acts : List Activity), acts.length ≠ 0 →
        ((chooseInputMethod up acts = "direct JSON" ↔
            (potentialFullPrompt up acts).length < PROMPT_LENGTH_THRESHOLD ∧
            acts.length < DIRECT_INPUT_THRESHOLD) ∧
         (chooseInputMethod up acts = "file upload" ↔
            ¬((potentialFullPrompt up acts).length < PROMPT_LENGTH_THRESHOLD ∧
              acts.length < DIRECT_INPUT_THRESHOLD)))) ∧
    (∀ (up : String) (acts : List Activity), acts.length ≠ 0 →
        ((chooseInputMethodP0 up acts = "direct JSON" ↔
            (potentialFullPromptP0 up acts).length < PROMPT_LENGTH_THRESHOLD_V1 ∧
            acts.length < DIRECT_INPUT_THRESHOLD_V1) ∧
         (chooseInputMethodP0 up acts = "file upload" ↔
            ¬((potentialFullPromptP0 up acts).length < PROMPT_LENGTH_THRESHOLD_V1 ∧
              acts.length < DIRECT_INPUT_THRESHOLD_V1)))) ∧
    (∀ (up : String) (acts : List Activity), acts.length ≠ 0 →
        (chooseInputMethodV1 up acts = "direct JSON" ↔
          (potentialFullPromptV1 up acts).length < PROMPT_LENGTH_THRESHOLD_V1 ∧
          acts.length ≤ DIRECT_INPUT_THRESHOLD_V1)) := by
  refine ⟨?_, ?_, ?_⟩
  · intro up acts hne
    simp only [chooseInputMethod, if_pos hne]
    by_cases h : (potentialFullPrompt up acts).length < PROMPT_LENGTH_THRESHOLD ∧
      acts.length < DIRECT_INPUT_THRESHOLD
    · simp [h]
    · simp [h]
  · intro up acts hne
    simp only [chooseInputMethodP0, if_pos hne]
    by_cases h : (potentialFullPromptP0 up acts).length < PROMPT_LENGTH_THRESHOLD_V1 ∧
      acts.length < DIRECT_INPUT_THRESHOLD_V1
    · simp [h]
    · simp [h]
  · intro up acts hne
    simp only [chooseInputMethodV1, if_pos hne]
    by_cases h : (potentialFullPromptV1 up acts).length < PROMPT_LENGTH_THRESHOLD_V1 ∧
      acts.length ≤ DIRECT_INPUT_THRESHOLD_V1
    · simp [h]
    · simp [h]

/-- Witness for C4: a one-activity batch with a one-character prompt. -/
theorem inline_thresholds_witness :
    (([tinyActivity] : List Activity).length ≠ 0) ∧
    (chooseInputMethod "p" [tinyActivity] = "direct JSON" ↔
      (potentialFullPrompt "p" [tinyActivity]).length < PROMPT_LENGTH_THRESHOLD ∧
      ([tinyActivity] : List Activity).length < DIRECT_INPUT_THRESHOLD) :=
  ⟨by decide,
   (inline_requires_strictly_below_thresholds.1 "p" [tinyActivity] (by decide)).1⟩

/-- C4 counterexample to the claim as stated: in the first variant of
`generateSummary` (`src/index.js` 628–657) a non-empty batch of exactly
`DIRECT_INPUT_THRESHOLD_V1 = 2000` records (each serialized small
enough to stay below the length threshold) is routed to inline
("direct JSON") delivery, not file upload, because that variant's count
comparison is `<=` rather than `<`. -/
theorem inline_threshold_counterexample :
    (List.replicate 2000 tinyActivity).length = DIRECT_INPUT_THRESHOLD_V1 ∧
    (List.replicate 2000 tinyActivity).length ≠ 0 ∧
    chooseInputMethodV1 "p" (List.replicate 2000 tinyActivity) = "direct JSON" ∧
    ("direct JSON" : String) ≠ "file upload" := by
  have hP : (serializeActivityPretty tinyActivity).length = 101 := by decide
  have hlen : (List.replicate 2000 tinyActivity).length = 2000 :=
    List.length_replicate 2000 tinyActivity
  have hrep : List.replicate 2000 tinyActivity ≠ [] := by
    intro h
    have h2 : (List.replicate 2000 tinyActivity).length = 0 := by rw [h]; rfl
    rw [hlen] at h2
    exact absurd h2 (by norm_num)
  have hJ : (joinSep ",\n"
      (List.replicate 2000 (serializeActivityPretty tinyActivity))).length = 205998 := by
    have h := joinSep_replicate_length ",\n" (serializeActivityPretty tinyActivity) 1999
    rw [hP] at h
    norm_num at h
    exact h
  have hser : (serializeActivitiesPretty (List.replicate 2000 tinyActivity)).length
      = 206002 := by
    rw [serializeActivitiesPretty, if_neg hrep]
    simp only [String.length_append, List.map_replicate]
    rw [hJ]
    rfl
  have hfull : (potentialFullPromptV1 "p" (List.replicate 2000 tinyActivity)).length
      = 206055 := by
    rw [potentialFullPromptV1]
    simp only [String.length_append]
    rw [hser]
    rfl
  refine ⟨by rw [hlen]; rfl, by rw [hlen]; norm_num, ?_, by decide⟩
  rw [chooseInputMethodV1, if_pos (by rw [hlen]; norm_num :
    (List.replicate 2000 tinyActivity).length ≠ 0)]
  rw [if_pos]
  constructor
  · rw [hfull]; norm_num [PROMPT_LENGTH_THRESHOLD_V1]
  · rw [hlen]; norm_num [DIRECT_INPUT_THRESHOLD_V1]

/-! ## Ascending-order validation of the query (C9) -/

/-- C9 (amended: only the streaming variant validates the ordering):
every `/generatesummary` request whose query text lacks the
`ORDER BY ActivityDate ASC` clause (the code's syntactic criterion for
ascending-date ordering) is rejected by the streaming-variant handler
with a client error (401 or 400) — the 202 acknowledgement is never
sent and pipeline processing is never started, so no record fetching
begins.  The first (non-streaming) variant performs no such
validation. -/
theorem missing_asc_order_rejected (req : GenSummaryRequest)
    (h : jsIncludes (jsToLower req.queryText) "order by activitydate asc" = false) :
    (handleGenerateSummary req).processingStarted = false ∧
    (handleGenerateSummary req).response ≠ .accepted ∧
    ((handleGenerateSummary req).response = .unauthorized ∨
      ∃ msg, (handleGenerateSummary req).response = .badRequest msg) := by
  simp only [handleGenerateSummary]
  by_cases h1 : bearerOk req.authHeader
  · by_cases h2 : missingRequired req = true
    · simp [h1, h2]
    · by_cases h3 : (jsIncludes (jsToLower req.queryText) "select" &&
          jsIncludes (jsToLower req.queryText) "from" &&
          jsIncludes (jsToLower req.queryText) "activitydate") = true
      · simp [h1, h2, h3, h]
      · simp [h1, h2, h3]
  · simp [h1]

/-- Witness for C9: a concrete descending-order request is rejected by
the streaming handler before acknowledgement. -/
theorem missing_asc_order_witness :
    jsIncludes (jsToLower descQueryRequest.queryText)
      "order by activitydate asc" = false ∧
    (handleGenerateSummary descQueryRequest).processingStarted = false :=
  ⟨by decide,
   (missing_asc_order_rejected descQueryRequest (by decide)).1⟩

/-- C9 counterexample to the claim as stated: the first-variant handler
(`src/index.js` 282–371, one of the claim's cited code locations)
acknowledges the same descending-order request with 202 and starts
pipeline processing — no ordering validation happens at all. -/
theorem missing_asc_order_counterexample :
    jsIncludes (jsToLower descQueryRequest.queryText)
      "order by activitydate asc" = false ∧
    handleGenerateSummaryV1 descQueryRequest =
      ⟨.accepted, true⟩ := by
  constructor
  · decide
  · decide

/-! ## The batch accumulator (C2) -/

theorem streamFold_core :
    ∀ (records : List SFRecord) (st : StreamState),
      (records.foldl (handleRecord false) st).core =
        coreFold (validParsed records) st.core
  | [], _ => rfl
  | r :: rest, st => by
      simp only [List.foldl_cons, validParsed, List.filterMap_cons]
      cases hp : parsePeriod r with
      | none =>
          have hh : handleRecord false st r =
              { st with recordCount := st.recordCount + 1 } := by
            unfold handleRecord
            rw [hp]
            cases r.ActivityDate <;> rfl
          rw [hh]
          cases hd : r.ActivityDate with
          | none => exact streamFold_core rest _
          | some ds => exact streamFold_core rest _
      | some p =>
          cases hd : r.ActivityDate with
          | none =>
              exfalso
              simp only [parsePeriod, hd] at hp
              exact Option.noConfusion hp
          | some ds =>
              have hh : handleRecord false st r =
                  { recordCount := st.recordCount + 1,
                    core := coreStep st.core p (truncAct r ds) } := by
                unfold handleRecord
                rw [hp, hd]
                rfl
              rw [hh]
              have hrec := streamFold_core rest
                ⟨st.recordCount + 1, coreStep st.core p (truncAct r ds)⟩
              simp only [validParsed] at hrec
              simp only [coreFold, List.foldl_cons]
              exact hrec

theorem chunkRuns_flatten :
    ∀ l : List ((Nat × String) × Activity), flattenRuns (chunkRuns l) = l
  | [] => rfl
  | (p, a) :: rest => by
      have ih := chunkRuns_flatten rest
      simp only [chunkRuns]
      cases hc : chunkRuns rest with
      | nil =>
          rw [hc] at ih
          dsimp only
          simp only [flattenRuns, List.flatMap_nil] at ih
          simp only [flattenRuns, List.flatMap_cons, List.flatMap_nil,
            List.map_cons, List.map_nil, List.append_nil]
          rw [← ih]
      | cons g gs =>
          obtain ⟨q, grp⟩ := g
          rw [hc] at ih
          dsimp only
          simp only [flattenRuns, List.flatMap_cons] at ih
          by_cases hpq : p = q
          · subst hpq
            rw [if_pos rfl]
            simp only [flattenRuns, List.flatMap_cons, List.map_cons,
              List.cons_append]
            exact congrArg (List.cons (p, a)) ih
          · rw [if_neg hpq]
            simp only [flattenRuns, List.flatMap_cons, List.map_cons,
              List.map_nil, List.singleton_append, List.nil_append]
            exact congrArg (List.cons (p, a)) ih

theorem chunkRuns_nonempty :
    ∀ (l : List ((Nat × String) × Activity)) (g : (Nat × String) × List Activity),
      g ∈ chunkRuns l → g.2 ≠ []
  | [], g, h => absurd h (by simp [chunkRuns])
  | (p, a) :: rest, g, h => by
      simp only [chunkRuns] at h
      cases hc : chunkRuns rest with
      | nil =>
          rw [hc] at h
          dsimp only at h
          simp only [List.mem_singleton] at h
          subst h
          simp
      | cons g0 gs =>
          obtain ⟨q, grp⟩ := g0
          rw [hc] at h
          dsimp only at h
          by_cases hpq : p = q
          · rw [if_pos hpq] at h
            rcases List.mem_cons.mp h with h | h
            · subst h; simp
            · exact chunkRuns_nonempty rest g (by rw [hc]; exact List.mem_cons_of_mem _ h)
          · rw [if_neg hpq] at h
            rcases List.mem_cons.mp h with h | h
            · subst h; simp
            · exact chunkRuns_nonempty rest g (by rw [hc]; exact h)

theorem chunkRuns_keys_sublist :
    ∀ l : List ((Nat × String) × Activity),
      List.Sublist ((chunkRuns l).map Prod.fst) (l.map Prod.fst)
  | [] => by simp [chunkRuns]
  | (p, a) :: rest => by
      have ih := chunkRuns_keys_sublist rest
      simp only [chunkRuns]
      cases hc : chunkRuns rest with
      | nil => simp
      | cons g0 gs =>
          obtain ⟨q, grp⟩ := g0
          rw [hc] at ih
          dsimp only
          by_cases hpq : p = q
          · subst hpq
            rw [if_pos rfl]
            simp only [List.map_cons] at ih ⊢
            exact List.Sublist.cons₂ p (List.sublist_of_cons_sublist ih)
          · rw [if_neg hpq]
            simp only [List.map_cons] at ih ⊢
            exact List.Sublist.cons₂ p ih

theorem chunkRuns_adj :
    ∀ l : List ((Nat × String) × Activity),
      List.Chain' (· ≠ ·) ((chunkRuns l).map Prod.fst)
  | [] => by simp [chunkRuns]
  | (p, a) :: rest => by
      have ih := chunkRuns_adj rest
      simp only [chunkRuns]
      cases hc : chunkRuns rest with
      | nil => simp
      | cons g0 gs =>
          obtain ⟨q, grp⟩ := g0
          rw [hc] at ih
          dsimp only
          by_cases hpq : p = q
          · subst hpq
            rw [if_pos rfl]
            simpa using ih
          · rw [if_neg hpq]
            simp only [List.map_cons] at ih ⊢
            exact List.Chain'.cons hpq ih

theorem chunkRuns_head_key :
    ∀ (p : Nat × String) (a : Activity) (rest : List ((Nat × String) × Activity)),
      ∃ g gs, chunkRuns ((p, a) :: rest) = g :: gs ∧ g.1 = p := by
  intro p a rest
  simp only [chunkRuns]
  cases chunkRuns rest with
  | nil => exact ⟨(p, [a]), [], rfl, rfl⟩
  | cons g0 gs =>
      obtain ⟨q, grp⟩ := g0
      dsimp only
      by_cases hpq : p = q
      · rw [if_pos hpq]
        exact ⟨(p, a :: grp), gs, rfl, rfl⟩
      · rw [if_neg hpq]
        exact ⟨(p, [a]), (q, grp) :: gs, rfl, rfl⟩

theorem chunkRuns_mem_pairs :
    ∀ (l : List ((Nat × String) × Activity)) (g : (Nat × String) × List Activity),
      g ∈ chunkRuns l → ∀ a ∈ g.2, (g.1, a) ∈ l := by
  intro l g hg a ha
  have hfl := chunkRuns_flatten l
  rw [← hfl]
  simp only [flattenRuns, List.mem_flatMap]
  exact ⟨g, hg, List.mem_map_of_mem _ ha⟩

theorem map_const_replicate (c : Nat × String) :
    ∀ xs : List Activity, xs.map (fun _ => c) = List.replicate xs.length c
  | [] => rfl
  | x :: rest => by
      simp only [List.map_cons, List.length_cons, List.replicate_succ]
      rw [map_const_replicate c rest]

theorem flattenRuns_map_fst :
    ∀ gs : List ((Nat × String) × List Activity),
      (flattenRuns gs).map Prod.fst =
        gs.flatMap (fun h => List.replicate h.2.length h.1)
  | [] => rfl
  | g :: rest => by
      simp only [flattenRuns, List.flatMap_cons, List.map_append]
      rw [show (rest.flatMap fun h => List.map (fun a => (h.1, a)) h.2) =
        flattenRuns rest from rfl]
      rw [flattenRuns_map_fst rest]
      congr 1
      rw [List.map_map]
      exact map_const_replicate g.1 g.2

theorem flattenRuns_map_snd :
    ∀ gs : List ((Nat × String) × List Activity),
      (flattenRuns gs).map Prod.snd = (gs.map Prod.snd).flatten
  | [] => rfl
  | g :: rest => by
      simp only [flattenRuns, List.flatMap_cons, List.map_append,
        List.map_cons, List.flatten_cons]
      rw [show (rest.flatMap fun h => List.map (fun a => (h.1, a)) h.2) =
        flattenRuns rest from rfl]
      rw [flattenRuns_map_snd rest]
      congr 1
      rw [List.map_map]
      simp

theorem count_flatMap_replicate_ge :
    ∀ (gs : List ((Nat × String) × List Activity))
      (g : (Nat × String) × List Activity), g ∈ gs →
      g.2.length ≤
        (gs.flatMap (fun h => List.replicate h.2.length h.1)).count g.1
  | [], g, h => absurd h (by simp)
  | h0 :: rest, g, h => by
      simp only [List.flatMap_cons, List.count_append]
      rcases List.mem_cons.mp h with h | h
      · subst h
        rw [List.count_replicate_self]
        exact Nat.le_add_right _ _
      · calc g.2.length ≤ _ := count_flatMap_replicate_ge rest g h
          _ ≤ _ := Nat.le_add_left _ _

theorem chunkRuns_size (l : List ((Nat × String) × Activity))
    (g : (Nat × String) × List Activity) (hg : g ∈ chunkRuns l) :
    g.2.length ≤ (l.map Prod.fst).count g.1 := by
  have h1 : l.map Prod.fst =
      (chunkRuns l).flatMap (fun h => List.replicate h.2.length h.1) := by
    conv_lhs => rw [← chunkRuns_flatten l]
    exact flattenRuns_map_fst (chunkRuns l)
  rw [h1]
  exact count_flatMap_replicate_ge (chunkRuns l) g hg

theorem coreStep_same_period (q : Nat × String) (a : Activity)
    (b : List Activity) (E : List (Option (Nat × String) × List Activity))
    (hlen : b.length + 1 < BULK_QUERY_BATCH_SIZE) :
    coreStep ⟨some q, b, E⟩ q a = ⟨some q, b ++ [a], E⟩ := by
  unfold coreStep
  rw [if_neg (by simp : ¬(some q ≠ (⟨some q, b, E⟩ : CoreState).currentPeriod))]
  dsimp only
  rw [if_neg]
  simp only [List.length_append, List.length_singleton]
  omega

theorem coreStep_new_period (p q : Nat × String) (a : Activity)
    (b : List Activity) (E : List (Option (Nat × String) × List Activity))
    (hne : q ≠ p) (hb : b ≠ []) :
    coreStep ⟨some p, b, E⟩ q a = ⟨some q, [a], E ++ [(some p, b)]⟩ := by
  unfold coreStep
  rw [if_pos (by simpa using hne :
    some q ≠ (⟨some p, b, E⟩ : CoreState).currentPeriod)]
  dsimp only
  rw [if_pos (by simpa using hb :
    (⟨some p, b, E⟩ : CoreState).currentMonthActivities ≠ [])]
  dsimp only
  simp [BULK_QUERY_BATCH_SIZE]

theorem coreStep_first (q : Nat × String) (a : Activity) :
    coreStep ⟨none, [], []⟩ q a = ⟨some q, [a], []⟩ := by
  unfold coreStep
  rw [if_pos (by simp : some q ≠ (⟨none, [], []⟩ : CoreState).currentPeriod)]
  dsimp only
  rw [if_neg (by simp : ¬(⟨none, [], []⟩ : CoreState).currentMonthActivities ≠ [])]
  dsimp only
  simp [BULK_QUERY_BATCH_SIZE]

theorem coreFold_run :
    ∀ (its : List Activity) (q : Nat × String) (b : List Activity)
      (E : List (Option (Nat × String) × List Activity)),
      b.length + its.length < BULK_QUERY_BATCH_SIZE →
      coreFold (its.map (fun a => (q, a))) ⟨some q, b, E⟩ = ⟨some q, b ++ its, E⟩
  | [], q, b, E, h => by simp [coreFold]
  | a :: rest, q, b, E, h => by
      simp only [List.map_cons, coreFold, List.foldl_cons]
      rw [show (coreStep ⟨some q, b, E⟩ (q, a).1 (q, a).2) =
        (⟨some q, b ++ [a], E⟩ : CoreState) from
        coreStep_same_period q a b E
          (by simp only [List.length_cons] at h; omega)]
      have hrec := coreFold_run rest q (b ++ [a]) E
        (by simp only [List.length_append, List.length_singleton]
            simp only [List.length_cons] at h
            omega)
      simp only [coreFold] at hrec
      rw [hrec]
      simp

theorem machine_groups :
    ∀ (gs : List ((Nat × String) × List Activity)) (p : Nat × String)
      (b : List Activity) (E : List (Option (Nat × String) × List Activity)),
      b ≠ [] → b.length < BULK_QUERY_BATCH_SIZE →
      (∀ g ∈ gs, g.2 ≠ [] ∧ g.2.length < BULK_QUERY_BATCH_SIZE) →
      List.Chain' (· ≠ ·) (p :: gs.map Prod.fst) →
      (endFlush (coreFold (flattenRuns gs) ⟨some p, b, E⟩)).emitted =
        E ++ (some p, b) :: gs.map (fun g => (some g.1, g.2))
  | [], p, b, E, hb, hlen, hgs, hch => by
      simp only [flattenRuns, List.flatMap_nil, coreFold, List.foldl_nil]
      unfold endFlush
      rw [if_pos (by simpa using hb :
        (⟨some p, b, E⟩ : CoreState).currentMonthActivities ≠ [])]
      simp
  | g :: gs', p, b, E, hb, hlen, hgs, hch => by
      obtain ⟨hgne, hglen⟩ := hgs g (List.mem_cons_self _ _)
      obtain ⟨a, grest, hgeq⟩ : ∃ a grest, g.2 = a :: grest := by
        cases hg2 : g.2 with
        | nil => exact absurd hg2 hgne
        | cons x xs => exact ⟨x, xs, rfl⟩
      have hq_ne_p : g.1 ≠ p := by
        have := List.chain'_cons.mp hch
        exact fun hc => this.1 hc.symm
      simp only [flattenRuns, List.flatMap_cons, hgeq, List.map_cons,
        List.cons_append]
      simp only [coreFold, List.foldl_cons, List.foldl_append]
      rw [show coreStep ⟨some p, b, E⟩ (g.1, a).1 (g.1, a).2 =
        (⟨some g.1, [a], E ++ [(some p, b)]⟩ : CoreState) from
        coreStep_new_period p g.1 a b E hq_ne_p hb]
      have hrun := coreFold_run grest g.1 [a] (E ++ [(some p, b)])
        (by simp only [List.length_singleton]
            rw [hgeq] at hglen
            simp only [List.length_cons] at hglen
            omega)
      simp only [coreFold] at hrun
      rw [hrun]
      have hrec := machine_groups gs' g.1 ([a] ++ grest) (E ++ [(some p, b)])
        (by simp) (by rw [List.singleton_append, ← hgeq]; exact hglen)
        (fun g' hg' => hgs g' (List.mem_cons_of_mem _ hg'))
        (by
          have := (List.chain'_cons.mp hch).2
          simpa using this)
      simp only [coreFold] at hrec
      rw [show (gs'.flatMap fun g => List.map (fun a => (g.1, a)) g.2) =
        flattenRuns gs' from rfl]
      rw [hrec]
      simp [hgeq]

theorem machine_initial :
    ∀ gs : List ((Nat × String) × List Activity),
      (∀ g ∈ gs, g.2 ≠ [] ∧ g.2.length < BULK_QUERY_BATCH_SIZE) →
      List.Chain' (· ≠ ·) (gs.map Prod.fst) →
      (endFlush (coreFold (flattenRuns gs) initCore)).emitted =
        gs.map (fun g => (some g.1, g.2))
  | [], _, _ => rfl
  | g :: gs', hgs, hch => by
      obtain ⟨hgne, hglen⟩ := hgs g (List.mem_cons_self _ _)
      obtain ⟨a, grest, hgeq⟩ : ∃ a grest, g.2 = a :: grest := by
        cases hg2 : g.2 with
        | nil => exact absurd hg2 hgne
        | cons x xs => exact ⟨x, xs, rfl⟩
      simp only [flattenRuns, List.flatMap_cons, hgeq, List.map_cons,
        List.cons_append]
      simp only [coreFold, List.foldl_cons, List.foldl_append]
      rw [show coreStep initCore (g.1, a).1 (g.1, a).2 =
        (⟨some g.1, [a], []⟩ : CoreState) from coreStep_first g.1 a]
      have hrun := coreFold_run grest g.1 [a] []
        (by simp only [List.length_singleton]
            rw [hgeq] at hglen
            simp only [List.length_cons] at hglen
            omega)
      simp only [coreFold] at hrun
      rw [hrun]
      cases gs' with
      | nil =>
          simp only [flattenRuns, List.flatMap_nil, List.foldl_nil]
          unfold endFlush
          rw [if_pos (by simp :
            (⟨some g.1, [a] ++ grest, []⟩ : CoreState).currentMonthActivities ≠ [])]
          simp [hgeq]
      | cons g2 gs2 =>
          have hrec := machine_groups (g2 :: gs2) g.1 ([a] ++ grest) []
            (by simp) (by rw [List.singleton_append, ← hgeq]; exact hglen)
            (fun g' hg' => hgs g' (List.mem_cons_of_mem _ hg'))
            (by
              have := hch
              simpa using this)
          simp only [coreFold] at hrec
          rw [show ((g2 :: gs2).flatMap fun g => List.map (fun a => (g.1, a)) g.2) =
            flattenRuns (g2 :: gs2) from rfl]
          rw [hrec]
          simp [hgeq]

theorem parseActivityDate_month_bounds (s : String) (y m d : Nat)
    (h : parseActivityDate s = some (y, m, d)) : 1 ≤ m ∧ m ≤ 12 := by
  unfold parseActivityDate at h
  split at h
  · split at h
    · dsimp only at h
      split at h
      · next hcond =>
          simp only [Option.some_inj, Prod.mk.injEq] at h
          obtain ⟨hy, hm, hd⟩ := h
          subst hm
          simp only [Bool.and_eq_true, decide_eq_true_eq] at hcond
          exact ⟨hcond.1.1.1, hcond.1.1.2⟩
      · exact Option.noConfusion h
    · exact Option.noConfusion h
  · exact Option.noConfusion h

theorem validDates_bounds (records : List SFRecord) :
    ∀ d ∈ validDates records, 1 ≤ d.2.1 ∧ d.2.1 ≤ 12 := by
  intro d hd
  simp only [validDates, List.mem_filterMap] at hd
  obtain ⟨r, hr, hf⟩ := hd
  cases ha : r.ActivityDate with
  | none => rw [ha] at hf; exact Option.noConfusion hf
  | some s =>
      rw [ha] at hf
      dsimp only at hf
      split at hf
      · exact Option.noConfusion hf
      · obtain ⟨dy, dm, dd⟩ := d
        exact parseActivityDate_month_bounds s dy dm dd hf

theorem validPeriods_pointwise (r : SFRecord) :
    Option.map Prod.fst
        (match parsePeriod r, r.ActivityDate with
          | some p, some ds => some (p, truncAct r ds)
          | _, _ => none) =
      Option.map dateToPeriod
        (match r.ActivityDate with
          | some s => if s = "" then none else parseActivityDate s
          | none => none) := by
  cases ha : r.ActivityDate with
  | none =>
      have hp : parsePeriod r = none := by simp [parsePeriod, ha]
      rw [hp]
      rfl
  | some s =>
      by_cases hs : s = ""
      · have hp : parsePeriod r = none := by simp [parsePeriod, ha, hs]
        rw [hp]
        dsimp only
        rw [if_pos hs]
        rfl
      · cases hd : parseActivityDate s with
        | none =>
            have hp : parsePeriod r = none := by
              simp [parsePeriod, ha, hs, hd]
            rw [hp]
            dsimp only
            rw [if_neg hs, hd]
            rfl
        | some t =>
            obtain ⟨ty, tm, td⟩ := t
            have hp : parsePeriod r = some (ty, monthLongName (tm - 1)) := by
              simp [parsePeriod, ha, hs, hd]
            rw [hp]
            dsimp only
            rw [if_neg hs, hd]
            rfl

theorem validPeriods_eq (records : List SFRecord) :
    validPeriods records = (validDates records).map dateToPeriod := by
  unfold validPeriods validParsed validDates
  rw [List.map_filterMap, List.map_filterMap]
  exact List.filterMap_congr (fun r _ => validPeriods_pointwise r)

theorem validPeriods_valid (records : List SFRecord) :
    ∀ p ∈ validPeriods records, ValidPeriod p := by
  intro p hp
  rw [validPeriods_eq] at hp
  obtain ⟨d, hd, rfl⟩ := List.mem_map.mp hp
  obtain ⟨h1, h2⟩ := validDates_bounds records d hd
  exact ⟨d.2.1 - 1, by omega, rfl⟩

theorem monthIdx_monthLongName (i : Nat) (h : i < 12) :
    monthIdx (monthLongName i) = i := by
  interval_cases i <;> decide

theorem periodLe_trans {a b c : Nat × String}
    (hab : periodLe a b) (hbc : periodLe b c) : periodLe a c := by
  unfold periodLe at *
  omega

theorem periodLe_antisymm_valid (p q : Nat × String)
    (hp : ValidPeriod p) (hq : ValidPeriod q)
    (hpq : periodLe p q) (hqp : periodLe q p) : p = q := by
  obtain ⟨i, hi, hpn⟩ := hp
  obtain ⟨j, hj, hqn⟩ := hq
  unfold periodLe at hpq hqp
  have hy : p.1 = q.1 := by omega
  have hm : monthIdx p.2 = monthIdx q.2 := by omega
  rw [hpn, hqn, monthIdx_monthLongName i hi, monthIdx_monthLongName j hj] at hm
  subst hm
  have : p.2 = q.2 := by rw [hpn, hqn]
  exact Prod.ext hy this

theorem dateToPeriod_mono (d1 d2 : Nat × Nat × Nat)
    (h1 : 1 ≤ d1.2.1 ∧ d1.2.1 ≤ 12) (h2 : 1 ≤ d2.2.1 ∧ d2.2.1 ≤ 12)
    (h : dateLe d1 d2) : periodLe (dateToPeriod d1) (dateToPeriod d2) := by
  unfold dateLe at h
  unfold periodLe dateToPeriod
  dsimp only
  rcases h with hy | ⟨hy, hm⟩
  · exact Or.inl hy
  · refine Or.inr ⟨hy, ?_⟩
    rw [monthIdx_monthLongName (d1.2.1 - 1) (by omega),
      monthIdx_monthLongName (d2.2.1 - 1) (by omega)]
    omega

theorem chain_dates_to_periods :
    ∀ ds : List (Nat × Nat × Nat),
      (∀ d ∈ ds, 1 ≤ d.2.1 ∧ d.2.1 ≤ 12) →
      List.Chain' dateLe ds →
      List.Chain' periodLe (ds.map dateToPeriod)
  | [] => by simp
  | [d] => by simp
  | d1 :: d2 :: rest => by
      intro hv h
      obtain ⟨h12, hrest⟩ := List.chain'_cons.mp h
      simp only [List.map_cons]
      refine List.chain'_cons.mpr ⟨?_, ?_⟩
      · exact dateToPeriod_mono d1 d2 (hv d1 (by simp)) (hv d2 (by simp)) h12
      · have hrec := chain_dates_to_periods (d2 :: rest)
          (fun d hd => hv d (List.mem_cons_of_mem _ hd)) hrest
        simpa using hrec

theorem chain'_periodLe_pairwise :
    ∀ ks : List (Nat × String), List.Chain' periodLe ks →
      List.Pairwise periodLe ks
  | [] => by simp
  | [k] => by simp
  | k1 :: k2 :: rest => by
      intro h
      obtain ⟨h12, hrest⟩ := List.chain'_cons.mp h
      have ih := chain'_periodLe_pairwise (k2 :: rest) hrest
      refine List.pairwise_cons.mpr ⟨?_, ih⟩
      intro x hx
      rcases List.mem_cons.mp hx with hx | hx
      · subst hx; exact h12
      · exact periodLe_trans h12 ((List.pairwise_cons.mp ih).1 x hx)

theorem nodup_of_pairwise_adj_valid :
    ∀ ks : List (Nat × String), List.Pairwise periodLe ks →
      List.Chain' (· ≠ ·) ks → (∀ p ∈ ks, ValidPeriod p) → ks.Nodup
  | [] => by simp
  | a :: t => by
      intro hp hc hv
      obtain ⟨ha, hpt⟩ := List.pairwise_cons.mp hp
      have iht := nodup_of_pairwise_adj_valid t hpt (List.Chain'.tail hc)
        (fun p hpm => hv p (List.mem_cons_of_mem _ hpm))
      refine List.nodup_cons.mpr ⟨?_, iht⟩
      intro hmem
      cases t with
      | nil => simp at hmem
      | cons b t' =>
          have hab : a ≠ b := (List.chain'_cons.mp hc).1
          rcases List.mem_cons.mp hmem with he | he
          · exact hab he
          · have hba : periodLe b a := (List.pairwise_cons.mp hpt).1 a he
            have hab' : periodLe a b := ha b (by simp)
            exact hab (periodLe_antisymm_valid a b (hv a (by simp))
              (hv b (by simp [List.mem_cons])) hab' hba)

theorem chunkRuns_keys_complete (l : List ((Nat × String) × Activity)) :
    ∀ x ∈ l.map Prod.fst, x ∈ (chunkRuns l).map Prod.fst := by
  intro x hx
  obtain ⟨pa, hpa, hfst⟩ := List.mem_map.mp hx
  have hfl : pa ∈ flattenRuns (chunkRuns l) := by
    rw [chunkRuns_flatten]; exact hpa
  simp only [flattenRuns, List.mem_flatMap] at hfl
  obtain ⟨g, hg, hmem⟩ := hfl
  obtain ⟨a, _, heq⟩ := List.mem_map.mp hmem
  rw [← hfst, ← heq]
  exact List.mem_map_of_mem Prod.fst hg

theorem validParsed_actPeriod (records : List SFRecord) :
    ∀ pa ∈ validParsed records, actPeriod pa.2 = some pa.1 := by
  intro pa hpa
  simp only [validParsed, List.mem_filterMap] at hpa
  obtain ⟨r, hr, hf⟩ := hpa
  cases hp : parsePeriod r with
  | none =>
      rw [hp] at hf
      cases hd : r.ActivityDate with
      | none => rw [hd] at hf; exact Option.noConfusion hf
      | some ds => rw [hd] at hf; exact Option.noConfusion hf
  | some p =>
      cases hd : r.ActivityDate with
      | none =>
          exfalso
          simp only [parsePeriod, hd] at hp
          exact Option.noConfusion hp
      | some ds =>
          rw [hp, hd] at hf
          dsimp only at hf
          simp only [Option.some_inj] at hf
          subst hf
          simp only [parsePeriod, hd] at hp
          split at hp
          · exact Option.noConfusion hp
          · dsimp only
            show actPeriod (truncAct r ds) = some p
            unfold actPeriod truncAct
            dsimp only
            cases hpd : parseActivityDate ds with
            | none => rw [hpd] at hp; exact Option.noConfusion hp
            | some t =>
                obtain ⟨ty, tm, td⟩ := t
                rw [hpd] at hp
                exact hp

/-- C2: For every input stream whose parseable activity dates are in
ascending calendar order and in which no (year, month) period accounts
for `BULK_QUERY_BATCH_SIZE` (500) or more valid records, the batch
accumulator emits exactly one batch per distinct period occurring among
the valid records; every emitted batch carries a period label and holds
only activities whose parsed period equals that label; and the emitted
batches' contents, concatenated in emission order, are exactly the
valid (parseable-date) records in input order — records with a missing
or unparseable date are dropped, nothing else is. -/
theorem batch_accumulator_correct (records : List SFRecord)
    (hsort : List.Chain' dateLe (validDates records))
    (hsize : ∀ p ∈ validPeriods records,
      (validPeriods records).count p < BULK_QUERY_BATCH_SIZE) :
    (streamBatches records).length = (validPeriods records).dedup.length ∧
    (∀ b ∈ streamBatches records, ∃ p : Nat × String,
      b.1 = some p ∧ ∀ a ∈ b.2, actPeriod a = some p) ∧
    ((streamBatches records).map Prod.snd).flatten =
      (validParsed records).map Prod.snd := by
  have hbridge : streamBatches records =
      (endFlush (coreFold (validParsed records) initCore)).emitted := by
    unfold streamBatches streamRun
    rw [streamFold_core records initStream]
    rfl
  have hperiods_pairwise : List.Pairwise periodLe (validPeriods records) := by
    rw [validPeriods_eq]
    exact chain'_periodLe_pairwise _
      (chain_dates_to_periods _ (validDates_bounds records) hsort)
  have hkeys_pairwise :
      List.Pairwise periodLe ((chunkRuns (validParsed records)).map Prod.fst) :=
    List.Pairwise.sublist (chunkRuns_keys_sublist _) hperiods_pairwise
  have hkeys_valid :
      ∀ p ∈ (chunkRuns (validParsed records)).map Prod.fst, ValidPeriod p :=
    fun p hp => validPeriods_valid records p
      ((chunkRuns_keys_sublist _).subset hp)
  have hkeys_nodup : ((chunkRuns (validParsed records)).map Prod.fst).Nodup :=
    nodup_of_pairwise_adj_valid _ hkeys_pairwise (chunkRuns_adj _) hkeys_valid
  have hgs_cond : ∀ g ∈ chunkRuns (validParsed records),
      g.2 ≠ [] ∧ g.2.length < BULK_QUERY_BATCH_SIZE := by
    intro g hg
    refine ⟨chunkRuns_nonempty _ g hg, lt_of_le_of_lt (chunkRuns_size _ g hg) ?_⟩
    exact hsize g.1 ((chunkRuns_keys_sublist _).subset
      (List.mem_map_of_mem Prod.fst hg))
  have hE : streamBatches records =
      (chunkRuns (validParsed records)).map (fun g => (some g.1, g.2)) := by
    rw [hbridge]
    conv_lhs => rw [(chunkRuns_flatten (validParsed records)).symm]
    exact machine_initial _ hgs_cond (chunkRuns_adj _)
  refine ⟨?_, ?_, ?_⟩
  · rw [hE, List.length_map]
    have h1 : ((chunkRuns (validParsed records)).map Prod.fst).toFinset.card =
        ((chunkRuns (validParsed records)).map Prod.fst).length :=
      List.toFinset_card_of_nodup hkeys_nodup
    have h2 : ((chunkRuns (validParsed records)).map Prod.fst).toFinset =
        (validPeriods records).toFinset := by
      apply Finset.ext
      intro x
      simp only [List.mem_toFinset]
      constructor
      · exact fun hx => (chunkRuns_keys_sublist _).subset hx
      · exact fun hx => chunkRuns_keys_complete _ x hx
    calc (chunkRuns (validParsed records)).length
        = ((chunkRuns (validParsed records)).map Prod.fst).length := by
          rw [List.length_map]
      _ = ((chunkRuns (validParsed records)).map Prod.fst).toFinset.card :=
          h1.symm
      _ = (validPeriods records).toFinset.card := by rw [h2]
      _ = (validPeriods records).dedup.length := List.card_toFinset _
  · intro b hb
    rw [hE] at hb
    obtain ⟨g, hg, rfl⟩ := List.mem_map.mp hb
    exact ⟨g.1, rfl, fun a ha =>
      validParsed_actPeriod records (g.1, a) (chunkRuns_mem_pairs _ g hg a ha)⟩
  · rw [hE]
    have hsnd : ((chunkRuns (validParsed records)).map
        (fun g => ((some g.1 : Option (Nat × String)), g.2))).map Prod.snd =
        (chunkRuns (validParsed records)).map Prod.snd := by
      simp
    rw [hsnd, ← flattenRuns_map_snd, chunkRuns_flatten]

/-- Witness for C2 at the concrete four-record stream `c2records`: the
ordering and size hypotheses hold there, and the accumulator facts
follow. -/
theorem batch_accumulator_witness :
    List.Chain' dateLe (validDates c2records) ∧
    (∀ p ∈ validPeriods c2records,
      (validPeriods c2records).count p < BULK_QUERY_BATCH_SIZE) ∧
    ((streamBatches c2records).length =
        (validPeriods c2records).dedup.length ∧
      (∀ b ∈ streamBatches c2records, ∃ p : Nat × String,
        b.1 = some p ∧ ∀ a ∈ b.2, actPeriod a = some p) ∧
      ((streamBatches c2records).map Prod.snd).flatten =
        (validParsed c2records).map Prod.snd) := by
  have hvd : validDates c2records =
      [(2024, 1, 15), (2024, 1, 20), (2024, 2, 3)] := by decide
  have hsort : List.Chain' dateLe (validDates c2records) := by
    rw [hvd]
    exact List.chain'_cons.mpr ⟨by decide,
      List.chain'_cons.mpr ⟨by decide, List.chain'_singleton _⟩⟩
  exact ⟨hsort, by decide,
    batch_accumulator_correct c2records hsort (by decide)⟩

/-! ## Month-to-quarter aggregation round trip (C7) -/

theorem gatherFor_append {α : Type} (key : String)
    (c : String × Nat × String × α) :
    ∀ cs, gatherFor key (cs ++ [c]) =
      gatherFor key cs ++ (if c.1 = key then [c.2.2.2] else [])
  | [] => by simp [gatherFor]
  | x :: rest => by
      simp only [List.cons_append, gatherFor, List.append_eq]
      rw [gatherFor_append key c rest]
      split <;> simp

theorem pushQuarterInput_keys {α : Type} (key : String) (y : Nat) (q : String)
    (out : α) :
    ∀ qs : List (String × QuarterEntry α),
      (pushQuarterInput key y q out qs).map Prod.fst =
        (if key ∈ qs.map Prod.fst then qs.map Prod.fst
         else qs.map Prod.fst ++ [key])
  | [] => by simp [pushQuarterInput]
  | (k, e) :: rest => by
      simp only [pushQuarterInput]
      by_cases hk : k = key
      · subst hk
        simp
      · rw [if_neg hk]
        simp only [List.map_cons]
        rw [pushQuarterInput_keys key y q out rest]
        by_cases hmem : key ∈ rest.map Prod.fst
        · simp [hmem, hk, Ne.symm hk]
        · simp [hmem, hk, Ne.symm hk]

theorem pushQuarterInput_entries {α : Type} (key : String) (y : Nat) (q : String)
    (out : α) :
    ∀ qs : List (String × QuarterEntry α), (qs.map Prod.fst).Nodup →
      ∀ ke ∈ pushQuarterInput key y q out qs,
        (ke.1 ≠ key ∧ ke ∈ qs) ∨
        (ke.1 = key ∧ ∃ e, (key, e) ∈ qs ∧
          ke = (key, { e with monthSummaries := e.monthSummaries ++ [out] })) ∨
        (ke.1 = key ∧ key ∉ qs.map Prod.fst ∧ ke = (key, ⟨[out], y, q⟩))
  | [], _, ke, hke => by
      simp only [pushQuarterInput, List.mem_singleton] at hke
      subst hke
      exact Or.inr (Or.inr ⟨rfl, by simp, rfl⟩)
  | (k, e) :: rest, hnd, ke, hke => by
      simp only [pushQuarterInput] at hke
      by_cases hk : k = key
      · subst hk
        rw [if_pos rfl] at hke
        rcases List.mem_cons.mp hke with hke | hke
        · subst hke
          exact Or.inr (Or.inl ⟨rfl, e, List.mem_cons_self _ _, rfl⟩)
        · left
          refine ⟨?_, List.mem_cons_of_mem _ hke⟩
          have hknd : k ∉ rest.map Prod.fst := by
            simp only [List.map_cons] at hnd
            exact (List.nodup_cons.mp hnd).1
          intro hcon
          exact hknd (hcon ▸ List.mem_map_of_mem Prod.fst hke)
      · rw [if_neg hk] at hke
        rcases List.mem_cons.mp hke with hke | hke
        · subst hke
          exact Or.inl ⟨hk, List.mem_cons_self _ _⟩
        · have hnd' : (rest.map Prod.fst).Nodup := by
            simp only [List.map_cons] at hnd
            exact (List.nodup_cons.mp hnd).2
          rcases pushQuarterInput_entries key y q out rest hnd' ke hke with
            h | ⟨h1, e', he', h2⟩ | ⟨h1, h2, h3⟩
          · exact Or.inl ⟨h.1, List.mem_cons_of_mem _ h.2⟩
          · exact Or.inr (Or.inl ⟨h1, e', List.mem_cons_of_mem _ he', h2⟩)
          · refine Or.inr (Or.inr ⟨h1, ?_, h3⟩)
            simp only [List.map_cons, List.mem_cons]
            rintro (hcon | hcon)
            · exact hk hcon.symm
            · exact h2 hcon

theorem quarterAggInv_push {α : Type} (processed : List (String × Nat × String × α))
    (c : String × Nat × String × α) (qs : List (String × QuarterEntry α))
    (hinv : quarterAggInv processed qs) :
    quarterAggInv (processed ++ [c])
      (pushQuarterInput c.1 c.2.1 c.2.2.1 c.2.2.2 qs) := by
  obtain ⟨hnd, hent, hnew, hmem⟩ := hinv
  have hkeys := pushQuarterInput_keys c.1 c.2.1 c.2.2.1 c.2.2.2 qs
  have hsub : ∀ k, k ∈ qs.map Prod.fst →
      k ∈ (pushQuarterInput c.1 c.2.1 c.2.2.1 c.2.2.2 qs).map Prod.fst := by
    intro k hk
    rw [hkeys]
    split
    · exact hk
    · exact List.mem_append_left _ hk
  have hcmem : c.1 ∈ (pushQuarterInput c.1 c.2.1 c.2.2.1 c.2.2.2 qs).map Prod.fst := by
    rw [hkeys]
    split
    · next h => exact h
    · simp
  refine ⟨?_, ?_, ?_, ?_⟩
  · rw [hkeys]
    split
    · exact hnd
    · next h =>
        refine List.Nodup.append hnd (List.nodup_singleton _) ?_
        intro a ha hb
        simp only [List.mem_singleton] at hb
        subst hb
        exact h ha
  · intro ke hke
    rcases pushQuarterInput_entries c.1 c.2.1 c.2.2.1 c.2.2.2 qs hnd ke hke with
      ⟨hne, hin⟩ | ⟨heq, e, hein, hkeq⟩ | ⟨heq, hnin, hkeq⟩
    · obtain ⟨hms, hnem⟩ := hent ke hin
      refine ⟨?_, hnem⟩
      rw [gatherFor_append, if_neg (fun hc => hne hc.symm), List.append_nil, hms]
    · obtain ⟨hms, _⟩ := hent (c.1, e) hein
      subst hkeq
      refine ⟨?_, by simp⟩
      simp only [heq]
      rw [gatherFor_append, if_pos rfl]
      simp only at hms ⊢
      rw [hms]
    · subst hkeq
      refine ⟨?_, by simp⟩
      simp only
      rw [gatherFor_append, if_pos rfl, hnew c.1 hnin]
      simp
  · intro k hk
    have hk1 : k ∉ qs.map Prod.fst := fun hc => hk (hsub k hc)
    have hk2 : k ≠ c.1 := fun hc => hk (hc ▸ hcmem)
    rw [gatherFor_append, if_neg (fun hc => hk2 hc.symm), List.append_nil]
    exact hnew k hk1
  · intro x hx
    rcases List.mem_append.mp hx with hx | hx
    · exact hsub x.1 (hmem x hx)
    · simp only [List.mem_singleton] at hx
      subst hx
      exact hcmem

theorem aggregateQ_inv {α : Type} :
    ∀ (cs processed : List (String × Nat × String × α))
      (qs : List (String × QuarterEntry α)),
      quarterAggInv processed qs →
      quarterAggInv (processed ++ cs) (aggregateQ cs qs)
  | [], processed, qs, h => by simpa using h
  | c :: cs, processed, qs, h => by
      have step := quarterAggInv_push processed c qs h
      have rest := aggregateQ_inv cs (processed ++ [c]) _ step
      simpa [aggregateQ] using rest

theorem processAndSaveMonthBatch_quarterlyInputs {α : Type} (env : MonthEnv α)
    (label : Option (Nat × String)) (acts : List Activity) (st : RunState α) :
    (processAndSaveMonthBatch env label acts st).1.quarterlyInputs =
      (match monthContribution env label acts with
       | some c => pushQuarterInput c.1 c.2.1 c.2.2.1 c.2.2.2 st.quarterlyInputs
       | none => st.quarterlyInputs) := by
  cases label with
  | none => simp [processAndSaveMonthBatch, monthContribution]
  | some p =>
      obtain ⟨y, m⟩ := p
      simp only [processAndSaveMonthBatch, monthContribution]
      split
      · simp
      · split
        · simp
        · cases env.assistantCreate with
          | error e => simp [monthCatch]
          | ok _ =>
              cases env.genSummary with
              | error e => simp [monthCatch]
              | ok out =>
                  cases env.sfSave with
                  | error e => simp [monthCatch]
                  | ok _ => simp

theorem runMonthPhase_go_quarterlyInputs {α : Type} (menv : Nat → MonthEnv α) :
    ∀ (batches : List (Option (Nat × String) × List Activity)) (i : Nat)
      (st : RunState α),
      (runMonthPhase.go menv i batches st).1.quarterlyInputs =
        aggregateQ (contributionsFrom menv i batches) st.quarterlyInputs
  | [], _, _ => rfl
  | b :: rest, i, st => by
      simp only [runMonthPhase.go, contributionsFrom]
      rw [runMonthPhase_go_quarterlyInputs menv rest (i + 1)]
      rw [processAndSaveMonthBatch_quarterlyInputs]
      cases monthContribution (menv i) b.1 b.2 with
      | none => rfl
      | some c => rfl

theorem processQuarter_traceKey {α : Type} (env : QuarterEnv) (key : String)
    (entry : QuarterEntry α) (st : RunState α) :
    (processQuarter env key entry st).2.quarterKey = key := by
  simp only [processQuarter]
  split
  · simp
  · cases env.assistantCreate with
    | error e => simp
    | ok _ =>
        cases env.genSummary with
        | error e => simp
        | ok out =>
            cases htr : transformQuarterlyStructure out with
            | none => simp [htr]
            | some t =>
                obtain ⟨y, q, d⟩ := t
                simp only [htr]
                split
                · cases env.sfSave with
                  | error e => simp
                  | ok _ => simp
                · simp

theorem processQuarter_traceInput {α : Type} (env : QuarterEnv) (key : String)
    (entry : QuarterEntry α) (st : RunState α) (y : Nat) (q : String)
    (outs : List α)
    (h : (processQuarter env key entry st).2.summarizerInput = some (y, q, outs)) :
    y = entry.year ∧ q = entry.quarter ∧ outs = entry.monthSummaries := by
  simp only [processQuarter] at h
  split at h
  · simp at h
  · cases hca : env.assistantCreate with
    | error e => rw [hca] at h; simp at h
    | ok _ =>
        rw [hca] at h
        dsimp only at h
        cases hgs : env.genSummary with
        | error e =>
            rw [hgs] at h
            simp at h
            exact ⟨h.1.symm, h.2.1.symm, h.2.2.symm⟩
        | ok out =>
            rw [hgs] at h
            dsimp only at h
            cases htr : transformQuarterlyStructure out with
            | none =>
                rw [htr] at h
                simp at h
                exact ⟨h.1.symm, h.2.1.symm, h.2.2.symm⟩
            | some t =>
                obtain ⟨ty, tq, td⟩ := t
                rw [htr] at h
                simp only at h
                split at h
                · cases hs : env.sfSave with
                  | error e =>
                      rw [hs] at h
                      simp at h
                      exact ⟨h.1.symm, h.2.1.symm, h.2.2.symm⟩
                  | ok _ =>
                      rw [hs] at h
                      simp at h
                      exact ⟨h.1.symm, h.2.1.symm, h.2.2.symm⟩
                · simp at h
                  exact ⟨h.1.symm, h.2.1.symm, h.2.2.symm⟩

theorem processQuarter_traceCalled {α : Type} (env : QuarterEnv) (key : String)
    (entry : QuarterEntry α) (st : RunState α)
    (hne : entry.monthSummaries.length ≠ 0) (u : Unit)
    (hca : env.assistantCreate = .ok u) :
    (processQuarter env key entry st).2.summarizerInput =
      some (entry.year, entry.quarter, entry.monthSummaries) := by
  simp only [processQuarter, if_neg hne, hca]
  cases env.genSummary with
  | error e => simp
  | ok out =>
      cases htr : transformQuarterlyStructure out with
      | none => simp [htr]
      | some t =>
          obtain ⟨ty, tq, td⟩ := t
          simp only [htr]
          split
          · cases env.sfSave with
            | error e => simp
            | ok _ => simp
          · simp

theorem processQuarter_trace_st_irrel {α : Type} (env : QuarterEnv) (key : String)
    (entry : QuarterEntry α) (st st' : RunState α) :
    (processQuarter env key entry st).2 = (processQuarter env key entry st').2 := by
  simp only [processQuarter]
  split
  · simp
  · cases env.assistantCreate with
    | error e => simp
    | ok _ =>
        cases env.genSummary with
        | error e => simp
        | ok out =>
            cases htr : transformQuarterlyStructure out with
            | none => simp [htr]
            | some t =>
                obtain ⟨ty, tq, td⟩ := t
                simp only [htr]
                split
                · cases env.sfSave with
                  | error e => simp
                  | ok _ => simp
                · simp

theorem runQuarterPhase_eq_quarterTraces {α : Type} (qenv : Nat → QuarterEnv) :
    ∀ (qs : List (String × QuarterEntry α)) (i : Nat) (st : RunState α),
      (runQuarterPhase qenv i qs st).2 = quarterTraces qenv i qs
  | [], _, _ => rfl
  | (key, entry) :: rest, i, st => by
      simp only [runQuarterPhase, quarterTraces]
      rw [runQuarterPhase_eq_quarterTraces qenv rest (i + 1)]
      rw [processQuarter_trace_st_irrel (qenv i) key entry st (initRunState α)]

theorem quarterTraces_mem {α : Type} (qenv : Nat → QuarterEnv) :
    ∀ (qs : List (String × QuarterEntry α)) (i : Nat) (tr : QuarterTrace α),
      tr ∈ quarterTraces qenv i qs →
      ∃ ke ∈ qs, ∃ j, tr = (processQuarter (qenv j) ke.1 ke.2 (initRunState α)).2
  | [], _, tr, h => absurd h (by simp [quarterTraces])
  | (key, entry) :: rest, i, tr, h => by
      simp only [quarterTraces, List.mem_cons] at h
      rcases h with h | h
      · exact ⟨(key, entry), List.mem_cons_self _ _, i, h⟩
      · obtain ⟨ke, hke, j, hj⟩ := quarterTraces_mem qenv rest (i + 1) tr h
        exact ⟨ke, List.mem_cons_of_mem _ hke, j, hj⟩

theorem quarterTraces_key_exists {α : Type} (qenv : Nat → QuarterEnv) :
    ∀ (qs : List (String × QuarterEntry α)) (i : Nat),
      ∀ ke ∈ qs, ∃ tr ∈ quarterTraces qenv i qs, tr.quarterKey = ke.1
  | [], _, ke, h => absurd h (by simp)
  | (key, entry) :: rest, i, ke, h => by
      rcases List.mem_cons.mp h with h | h
      · subst h
        exact ⟨(processQuarter (qenv i) key entry (initRunState α)).2,
          List.mem_cons_self _ _, processQuarter_traceKey (qenv i) key entry _⟩
      · obtain ⟨tr, htr, hkey⟩ := quarterTraces_key_exists qenv rest (i + 1) ke h
        exact ⟨tr, List.mem_cons_of_mem _ htr, hkey⟩

theorem contributionsFrom_mem_of_get {α : Type} (menv : Nat → MonthEnv α) :
    ∀ (batches : List (Option (Nat × String) × List Activity)) (i j : Nat)
      (hj : j < batches.length) (c : String × Nat × String × α),
      monthContribution (menv (i + j)) (batches.get ⟨j, hj⟩).1
        (batches.get ⟨j, hj⟩).2 = some c →
      c ∈ contributionsFrom menv i batches
  | [], _, j, hj, c => absurd hj (by simp)
  | b :: rest, i, 0, hj, c => by
      intro h
      rw [Nat.add_zero] at h
      simp only [List.get] at h
      simp only [contributionsFrom, h]
      exact List.mem_cons_self _ _
  | b :: rest, i, j + 1, hj, c => by
      intro h
      have hj' : j < rest.length := by simpa using hj
      have hrec := contributionsFrom_mem_of_get menv rest (i + 1) j hj' c
        (by rw [show i + 1 + j = i + (j + 1) by omega]; exact h)
      simp only [contributionsFrom]
      cases monthContribution (menv i) b.1 b.2 with
      | none => exact hrec
      | some c0 => exact List.mem_cons_of_mem _ hrec

theorem gatherFor_mem {α : Type} (key : String) :
    ∀ (cs : List (String × Nat × String × α)) (c : String × Nat × String × α),
      c ∈ cs → c.1 = key → c.2.2.2 ∈ gatherFor key cs
  | [], c, h, _ => absurd h (by simp)
  | x :: rest, c, h, hkey => by
      rcases List.mem_cons.mp h with h | h
      · subst h
        simp only [gatherFor, if_pos hkey]
        exact List.mem_cons_self _ _
      · simp only [gatherFor]
        split
        · exact List.mem_cons_of_mem _ (gatherFor_mem key rest c h hkey)
        · exact gatherFor_mem key rest c h hkey

theorem monthContribution_mkKey {α : Type} (env : MonthEnv α)
    (label : Option (Nat × String)) (acts : List Activity) (key : String)
    (y : Nat) (q : String) (out : α)
    (h : monthContribution env label acts = some (key, y, q, out)) :
    key = mkQuarterKey y q ∧
    ∃ month monthIndex, label = some (y, month) ∧
      monthMap (jsToLower month) = some monthIndex ∧
      q = getQuarterFromMonthIndex monthIndex := by
  cases label with
  | none => simp [monthContribution] at h
  | some p =>
      obtain ⟨py, pm⟩ := p
      simp only [monthContribution] at h
      split at h
      · simp at h
      · cases hmm : monthMap (jsToLower pm) with
        | none => rw [hmm] at h; simp at h
        | some midx =>
            rw [hmm] at h
            cases hc1 : env.assistantCreate with
            | error e => rw [hc1] at h; simp at h
            | ok u =>
                rw [hc1] at h
                cases hc2 : env.genSummary with
                | error e => rw [hc2] at h; simp at h
                | ok o =>
                    rw [hc2] at h
                    cases hc3 : env.sfSave with
                    | error e => rw [hc3] at h; simp at h
                    | ok v =>
                        rw [hc3] at h
                        simp only [Option.some_inj, Prod.mk.injEq] at h
                        obtain ⟨hkey, hy, hq, hout⟩ := h
                        subst hy
                        subst hq
                        exact ⟨hkey.symm, pm, midx, rfl, hmm, rfl⟩

theorem initial_quarterAggInv {α : Type} :
    quarterAggInv ([] : List (String × Nat × String × α)) [] :=
  ⟨by simp, by simp, fun _ _ => rfl, by simp⟩

theorem final_quarterlyInputs_inv {α : Type} (menv : Nat → MonthEnv α)
    (batches : List (Option (Nat × String) × List Activity)) :
    (runMonthPhase menv batches (initRunState α)).1.quarterlyInputs =
      aggregateQ (contributions menv batches) [] ∧
    quarterAggInv (contributions menv batches)
      (aggregateQ (contributions menv batches) []) := by
  constructor
  · exact runMonthPhase_go_quarterlyInputs menv batches 0 (initRunState α)
  · have h := aggregateQ_inv (contributions menv batches) [] [] initial_quarterAggInv
    simpa using h

/-- C7: the monthly-to-quarterly round trip.  (1) `getQuarterFromMonthIndex`
maps month indices 0–2, 3–5, 6–8, 9–11 to Q1–Q4.  (2) Every monthly AI
output produced by a fully-processed month batch is recorded under the
quarter key derived from its month index, appears in the accumulated
list for that key (whose contents are exactly the ordered contributions
for that key), and that quarter is iterated by the quarterly loop.
(3) Whenever a quarterly Summarizer call receives an aggregation input,
its month-summaries list is verbatim the ordered list of monthly AI
outputs contributed for that trace's quarter key.  (4) Whenever the
quarterly loop's assistant creation succeeds for a non-empty entry, the
Summarizer call is made with exactly `(year, quarter, monthSummaries)`
of that entry. -/
theorem monthly_result_roundtrip :
    (∀ m : Nat,
        (m ≤ 2 → getQuarterFromMonthIndex m = "Q1") ∧
        (3 ≤ m → m ≤ 5 → getQuarterFromMonthIndex m = "Q2") ∧
        (6 ≤ m → m ≤ 8 → getQuarterFromMonthIndex m = "Q3") ∧
        (9 ≤ m → m ≤ 11 → getQuarterFromMonthIndex m = "Q4")) ∧
    (∀ (α : Type) (menv : Nat → MonthEnv α) (qenv : Nat → QuarterEnv)
        (records : List SFRecord) (accountId loggedinUserId : String)
        (j : Nat) (hj : j < (streamBatches records).length)
        (key : String) (y : Nat) (q : String) (out : α),
        monthContribution (menv j) ((streamBatches records).get ⟨j, hj⟩).1
          ((streamBatches records).get ⟨j, hj⟩).2 = some (key, y, q, out) →
        key = mkQuarterKey y q ∧
        out ∈ gatherFor key (contributions menv (streamBatches records)) ∧
        (∃ ke ∈ (runMonthPhase menv (streamBatches records)
            (initRunState α)).1.quarterlyInputs,
          ke.1 = key ∧ ke.2.monthSummaries =
            gatherFor key (contributions menv (streamBatches records))) ∧
        (∃ tr ∈ (processSummary accountId loggedinUserId records none menv
            qenv).quarterTraces, tr.quarterKey = key)) ∧
    (∀ (α : Type) (menv : Nat → MonthEnv α) (qenv : Nat → QuarterEnv)
        (records : List SFRecord) (accountId loggedinUserId : String),
        ∀ tr ∈ (processSummary accountId loggedinUserId records none menv
            qenv).quarterTraces,
          ∀ y q outs, tr.summarizerInput = some (y, q, outs) →
            outs = gatherFor tr.quarterKey
              (contributions menv (streamBatches records))) ∧
    (∀ (α : Type) (env : QuarterEnv) (key : String) (entry : QuarterEntry α)
        (st : RunState α),
        entry.monthSummaries.length ≠ 0 → ∀ u, env.assistantCreate = .ok u →
        (processQuarter env key entry st).2.summarizerInput =
          some (entry.year, entry.quarter, entry.monthSummaries)) := by
  refine ⟨?_, ?_, ?_, ?_⟩
  · intro m
    refine ⟨?_, ?_, ?_, ?_⟩
    · intro h1; interval_cases m <;> decide
    · intro h1 h2; interval_cases m <;> decide
    · intro h1 h2; interval_cases m <;> decide
    · intro h1 h2; interval_cases m <;> decide
  · intro α menv qenv records accountId loggedinUserId j hj key y q out h
    have hkey := monthContribution_mkKey (menv j) _ _ key y q out h
    have hc : (key, y, q, out) ∈ contributions menv (streamBatches records) := by
      exact contributionsFrom_mem_of_get menv (streamBatches records) 0 j hj
        (key, y, q, out) (by rw [Nat.zero_add]; exact h)
    obtain ⟨hQI, hinv⟩ := final_quarterlyInputs_inv menv (streamBatches records)
    have hkmem := hinv.2.2.2 (key, y, q, out) hc
    obtain ⟨ke, hkemem, hke1⟩ := List.mem_map.mp hkmem
    refine ⟨hkey.1, gatherFor_mem key _ _ hc rfl, ?_, ?_⟩
    · refine ⟨ke, by rw [hQI]; exact hkemem, hke1, ?_⟩
      have hms := (hinv.2.1 ke hkemem).1
      rw [hke1] at hms
      exact hms
    · obtain ⟨tr, htrmem, htrkey⟩ :=
        quarterTraces_key_exists qenv _ 0 ke hkemem
      refine ⟨tr, ?_, by rw [htrkey, hke1]⟩
      show tr ∈ (runQuarterPhase qenv 0
        (runMonthPhase menv (streamBatches records) (initRunState α)).1.quarterlyInputs
        (runMonthPhase menv (streamBatches records) (initRunState α)).1).2
      rw [runQuarterPhase_eq_quarterTraces, hQI]
      exact htrmem
  · intro α menv qenv records accountId loggedinUserId tr htr y q outs hin
    obtain ⟨hQI, hinv⟩ := final_quarterlyInputs_inv menv (streamBatches records)
    have htr' : tr ∈ quarterTraces qenv 0
        (aggregateQ (contributions menv (streamBatches records)) []) := by
      have heq : (processSummary accountId loggedinUserId records none menv
          qenv).quarterTraces = quarterTraces qenv 0
            (aggregateQ (contributions menv (streamBatches records)) []) := by
        show (runQuarterPhase qenv 0
          (runMonthPhase menv (streamBatches records) (initRunState α)).1.quarterlyInputs
          (runMonthPhase menv (streamBatches records) (initRunState α)).1).2 = _
        rw [runQuarterPhase_eq_quarterTraces, hQI]
      rw [heq] at htr
      exact htr
    obtain ⟨ke, hkemem, jj, hjj⟩ := quarterTraces_mem qenv _ 0 tr htr'
    have hkeyeq : tr.quarterKey = ke.1 := by
      rw [hjj]
      exact processQuarter_traceKey (qenv jj) ke.1 ke.2 _
    have hms : outs = ke.2.monthSummaries := by
      have := processQuarter_traceInput (qenv jj) ke.1 ke.2 (initRunState α)
        y q outs (by rw [← hjj]; exact hin)
      exact this.2.2
    have hgather := (hinv.2.1 ke hkemem).1
    rw [hms, hgather, hkeyeq]
  · intro α env key entry st hne u hca
    exact processQuarter_traceCalled env key entry st hne u hca

/-- Witness for C7 at a concrete non-empty Q1 2024 entry. -/
theorem monthly_result_roundtrip_witness :
    sampleQuarterEntry.monthSummaries.length ≠ 0 ∧
    sampleInvalidQuarterEnv.assistantCreate = .ok () ∧
    (processQuarter sampleInvalidQuarterEnv "2024-Q1" sampleQuarterEntry
        (initRunState Unit)).2.summarizerInput =
      some (sampleQuarterEntry.year, sampleQuarterEntry.quarter,
        sampleQuarterEntry.monthSummaries) :=
  ⟨by decide, rfl,
   monthly_result_roundtrip.2.2.2 Unit sampleInvalidQuarterEnv "2024-Q1"
     sampleQuarterEntry (initRunState Unit) (by decide) () rfl⟩

/-! ## The persister updates known period keys (C8) -/

theorem toDigitsCore_length_le (b : Nat) :
    ∀ (fuel n : Nat) (ds : List Char),
      ds.length ≤ (Nat.toDigitsCore b fuel n ds).length
  | 0, _, _ => le_refl _
  | fuel + 1, n, ds => by
      simp only [Nat.toDigitsCore]
      split
      · simp
      · refine le_trans ?_
          (toDigitsCore_length_le b fuel (n / b) ((n % b).digitChar :: ds))
        simp

theorem nat_toString_ne_empty (n : Nat) : toString n ≠ "" := by
  show Nat.repr n ≠ ""
  intro h
  have h2 := congrArg String.length h
  have h1 : 1 ≤ (Nat.toDigits 10 n).length := by
    unfold Nat.toDigits
    simp only [Nat.toDigitsCore]
    split
    · simp
    · exact le_trans (by simp) (toDigitsCore_length_le 10 n (n / 10) _)
  unfold Nat.repr at h2
  simp only [List.asString, String.length] at h2
  simp only [List.length_nil] at h2
  omega

theorem queueEntry_inner_foldl (parentId category : String)
    (map : List SummaryMapEntry) (y : Nat) :
    ∀ (ps : List (String × PeriodSummaryData))
      (acc : List QueuedCreate × List QueuedUpdate),
      ps.foldl
        (fun acc pe =>
          let r := queueEntry parentId category map y pe.1
          (acc.1 ++ r.1, acc.2 ++ r.2)) acc =
      (acc.1 ++ ps.flatMap (fun pe => (queueEntry parentId category map y pe.1).1),
       acc.2 ++ ps.flatMap (fun pe => (queueEntry parentId category map y pe.1).2))
  | [], acc => by simp
  | pe :: rest, acc => by
      simp only [List.foldl_cons, List.flatMap_cons]
      rw [queueEntry_inner_foldl parentId category map y rest]
      simp [List.append_assoc]

theorem createTimile_outer_foldl (parentId category : String)
    (map : List SummaryMapEntry) :
    ∀ (summaries : List (Nat × List (String × PeriodSummaryData)))
      (acc : List QueuedCreate × List QueuedUpdate),
      summaries.foldl
        (fun acc ye =>
          ye.2.foldl
            (fun acc pe =>
              let r := queueEntry parentId category map ye.1 pe.1
              (acc.1 ++ r.1, acc.2 ++ r.2)) acc) acc =
      (acc.1 ++ (periodEntries summaries).flatMap
        (fun yp => (queueEntry parentId category map yp.1 yp.2).1),
       acc.2 ++ (periodEntries summaries).flatMap
        (fun yp => (queueEntry parentId category map yp.1 yp.2).2))
  | [], acc => by simp [periodEntries]
  | ye :: rest, acc => by
      simp only [List.foldl_cons]
      rw [queueEntry_inner_foldl parentId category map ye.1 ye.2 acc]
      rw [createTimile_outer_foldl parentId category map rest]
      simp only [periodEntries, List.flatMap_cons, List.flatMap_append,
        List.append_assoc]
      simp [List.flatMap_map]

theorem createTimile_flatten (summaries : List (Nat × List (String × PeriodSummaryData)))
    (parentId category : String) (map : List SummaryMapEntry) :
    createTimileSummarySalesforceRecords summaries parentId category map =
      ((periodEntries summaries).flatMap
        (fun yp => (queueEntry parentId category map yp.1 yp.2).1),
       (periodEntries summaries).flatMap
        (fun yp => (queueEntry parentId category map yp.1 yp.2).2)) := by
  unfold createTimileSummarySalesforceRecords
  rw [createTimile_outer_foldl parentId category map summaries ([], [])]
  simp

theorem queueEntry_create_unmapped (parentId category : String)
    (map : List SummaryMapEntry) (y : Nat) (pk : String) :
    ∀ c ∈ (queueEntry parentId category map y pk).1,
      c.summaryMapKey = mkSummaryMapKey category y pk ∧
      (getValueByKey map (mkSummaryMapKey category y pk) = none ∨
       getValueByKey map (mkSummaryMapKey category y pk) = some "") := by
  intro c hc
  simp only [queueEntry] at hc
  split at hc
  · simp at hc
  · cases hk : getValueByKey map (mkSummaryMapKey category y pk) with
    | none =>
        rw [hk] at hc
        simp at hc
        exact ⟨by rw [hc], Or.inl rfl⟩
    | some id =>
        rw [hk] at hc
        by_cases hid : id = ""
        · subst hid
          simp at hc
          exact ⟨by rw [hc], Or.inr rfl⟩
        · simp [hid] at hc

theorem queueEntry_update_found (parentId category : String)
    (map : List SummaryMapEntry) (y : Nat) (pk : String) (id : String)
    (hp : parentId ≠ "") (hc : category ≠ "")
    (hid : getValueByKey map (mkSummaryMapKey category y pk) = some id)
    (hne : id ≠ "") :
    ∃ p, (queueEntry parentId category map y pk).2 =
      [⟨mkSummaryMapKey category y pk, id, p⟩] := by
  simp only [queueEntry, hid]
  rw [if_neg (by
    push_neg
    exact ⟨hp, hc, nat_toString_ne_empty y⟩)]
  simp [hne]

/-- C8: for every period key whose derived lookup key (`"Q1 2024"` /
`"Jan 2024"`) is present in the caller-supplied existing-record lookup
map with a (non-empty) record id, `createTimileSummarySalesforceRecords`
queues an update against the mapped id and never queues a create for
that key; since the function is deterministic in its arguments, calling
it twice with the same period key and the same map queues an update both
times and never a duplicate create.  (The `parentId`/`category`
non-emptiness hypotheses reflect the route validation: `accountId` is a
required request field and the category is one of the two literals.) -/
theorem persister_updates_known_keys :
    (∀ (summaries : List (Nat × List (String × PeriodSummaryData)))
        (parentId category : String) (map : List SummaryMapEntry),
        ∀ c ∈ (createTimileSummarySalesforceRecords summaries parentId
            category map).1,
          ∀ id, getValueByKey map c.summaryMapKey = some id → id = "") ∧
    (∀ (summaries : List (Nat × List (String × PeriodSummaryData)))
        (parentId category : String) (map : List SummaryMapEntry)
        (y : Nat) (ps : List (String × PeriodSummaryData)) (pk : String)
        (d : PeriodSummaryData) (id : String),
        parentId ≠ "" → category ≠ "" →
        (y, ps) ∈ summaries → (pk, d) ∈ ps →
        getValueByKey map (mkSummaryMapKey category y pk) = some id → id ≠ "" →
        ∃ u ∈ (createTimileSummarySalesforceRecords summaries parentId
            category map).2,
          u.summaryMapKey = mkSummaryMapKey category y pk ∧ u.Id = id) := by
  constructor
  · intro summaries parentId category map c hc id hlookup
    rw [createTimile_flatten] at hc
    simp only [List.mem_flatMap] at hc
    obtain ⟨yp, _, hmem⟩ := hc
    obtain ⟨hkey, hnone⟩ :=
      queueEntry_create_unmapped parentId category map yp.1 yp.2 c hmem
    rw [hkey] at hlookup
    rcases hnone with h | h
    · rw [h] at hlookup; cases hlookup
    · rw [h] at hlookup
      exact (Option.some_inj.mp hlookup).symm
  · intro summaries parentId category map y ps pk d id hp hcat hys hpk hlookup hne
    obtain ⟨p, hq⟩ :=
      queueEntry_update_found parentId category map y pk id hp hcat hlookup hne
    refine ⟨⟨mkSummaryMapKey category y pk, id, p⟩, ?_, rfl, rfl⟩
    rw [createTimile_flatten]
    simp only [List.mem_flatMap]
    refine ⟨(y, pk), ?_, ?_⟩
    · simp only [periodEntries, List.mem_flatMap]
      exact ⟨(y, ps), hys, List.mem_map.mpr ⟨(pk, d), hpk, rfl⟩⟩
    · rw [hq]; simp

/-- Witness for C8 at a concrete Quarterly call whose lookup map
contains "Q1 2024". -/
theorem persister_updates_witness :
    ("001A" : String) ≠ "" ∧ ("Quarterly" : String) ≠ "" ∧
    (2024, [("Q1", samplePeriodData)]) ∈ sampleSummaries ∧
    ("Q1", samplePeriodData) ∈ [("Q1", samplePeriodData)] ∧
    getValueByKey sampleSummaryMap (mkSummaryMapKey "Quarterly" 2024 "Q1") =
      some "a0X000000000001" ∧
    ("a0X000000000001" : String) ≠ "" ∧
    ∃ u ∈ (createTimileSummarySalesforceRecords sampleSummaries "001A"
        "Quarterly" sampleSummaryMap).2,
      u.summaryMapKey = mkSummaryMapKey "Quarterly" 2024 "Q1" ∧
      u.Id = "a0X000000000001" :=
  ⟨by decide, by decide, by decide, by decide, by decide, by decide,
   persister_updates_known_keys.2 sampleSummaries "001A" "Quarterly"
     sampleSummaryMap 2024 [("Q1", samplePeriodData)] "Q1" samplePeriodData
     "a0X000000000001" (by decide) (by decide) (by decide) (by decide)
     (by decide) (by decide)⟩

/-- Witness for C3 at a concrete failing January 2024 batch. -/
theorem month_failure_witness :
    (([sampleActivity] : List Activity).length ≠ 0) ∧
    (monthMap (jsToLower "January")).isSome ∧
    monthEnvError sampleFailMonthEnv = some "AI run failed" ∧
    (processAndSaveMonthBatch sampleFailMonthEnv (some (2024, "January"))
        [sampleActivity] (initRunState Unit)).1 =
      monthCatch (initRunState Unit) "January" 2024 "AI run failed" :=
  ⟨by decide, by decide, by rfl,
   month_failure_does_not_abort_run.2 Unit sampleFailMonthEnv 2024 "January"
     [sampleActivity] (initRunState Unit) "AI run failed" (by decide) (by decide)
     (by rfl)⟩

end SummaryPipeline
